import Mathlib

/-!
Verification of the RPGEngine2 turn-based tactical combat engine.

The development shallowly embeds the Python sources:
  * `config.py`  : the two movement-related constants;
  * `utils.py`   : `manhattan_distance`;
  * `engine.py`  : `GameMap`, `Entity` (move / take_damage / attack) and the
    `GameEngine` state machine (`_setup_turn_order`, `start_game`, `next_turn`,
    `run_npc_behavior`, `update`, `handle_player_action`, `end_player_turn`);
  * `abilities.py` : `TargetType`, `Ability`, and the move / damage fragments of
    `Ability.execute`.
Python objects that are mutated in place are represented by immutable records
threaded through the functions; object identity (used by `==` on entities in
the source) is represented by an `eid` field, and the engine's lists of entity
objects become a store `List Entity` updated through `setE`.  Parts of the
repository that `abilities.py` and `ai.py` call but whose definitions are not
in the sources (the pathfinder, the blocking-entity query, the newer entity
class with `current_ap` / `defense` / `is_dead`) are modelled from the spec and
marked as such in their doc comments.
-/

/-- config.py `MAX_CLIMB_HEIGHT_DIFFERENCE = 1`. -/
def MAX_CLIMB_HEIGHT_DIFFERENCE : Int := 1

/-- config.py `MAX_MAP_HEIGHT_LEVEL = 5`. -/
def MAX_MAP_HEIGHT_LEVEL : Int := 5

/-- utils.py `manhattan_distance(p1, p2)`. -/
def manhattan_distance (p1 p2 : Int × Int) : Int :=
  |p1.1 - p2.1| + |p1.2 - p2.2|

/-- Value returned by `GameMap.get_height`: either a genuine integer height or
the Python sentinel `float('inf')` returned for out-of-bounds coordinates. -/
inductive Hgt where
  | int (n : Int)
  | inf
deriving DecidableEq, Repr

/-- Python `h > k` for `h` a height value that may be `float('inf')` and `k`
an integer: infinity is greater than every integer. -/
def Hgt.gtInt (h : Hgt) (k : Int) : Bool :=
  match h with
  | .int n => n > k
  | .inf => true

/-- Python `target - current > k` under float semantics, as evaluated by
`Entity.move` (engine.py line 57-58): `inf - c = inf > k` is true,
`t - inf = -inf > k` is false, and `inf - inf = nan > k` is also false. -/
def Hgt.diffGt (target current : Hgt) (k : Int) : Bool :=
  match target, current with
  | .int t, .int c => t - c > k
  | .inf, .int _ => true
  | .int _, .inf => false
  | .inf, .inf => false

/-- engine.py `GameMap`: a 2D list of terrain characters and a parallel 2D
list of integer heights.  The source assumes both lists are rectangular with
identical dimensions; the embedding uses total indexing with defaults that
are only reached on inputs the source would crash on. -/
structure GameMap where
  tiles : List (List Char)
  heightmap : List (List Int)
deriving DecidableEq, Repr

/-- `GameMap.width`: `len(tiles[0]) if tiles else 0`. -/
def GameMap.width (m : GameMap) : Int :=
  ((m.tiles.headD []).length : Int)

/-- `GameMap.height`: `len(tiles) if tiles else 0`. -/
def GameMap.height (m : GameMap) : Int :=
  (m.tiles.length : Int)

/-- engine.py `GameMap.is_valid(x, y)`. -/
def GameMap.is_valid (m : GameMap) (x y : Int) : Bool :=
  0 ≤ x && x < m.width && 0 ≤ y && y < m.height

/-- engine.py `GameMap.get_height(x, y)`: the heightmap entry when the
coordinates are valid, and the impassable sentinel `float('inf')` otherwise. -/
def GameMap.get_height (m : GameMap) (x y : Int) : Hgt :=
  if m.is_valid x y then .int (((m.heightmap.getD y.toNat []).getD x.toNat 0)) else .inf

/-- engine.py `GameMap.get_tile(x, y)`. -/
def GameMap.get_tile (m : GameMap) (x y : Int) : Option Char :=
  if m.is_valid x y then some ((m.tiles.getD y.toNat []).getD x.toNat '#') else none

/-- engine.py `GameMap.is_walkable(x, y)`: valid and the tile is not the
wall character. -/
def GameMap.is_walkable (m : GameMap) (x y : Int) : Bool :=
  if m.is_valid x y then ((m.tiles.getD y.toNat []).getD x.toNat '#') != '#' else false

/-- abilities.py `TargetType`. -/
inductive TargetType where
  | SELF
  | ENEMY
  | ALLY
  | TILE
  | ANY_ENTITY
deriving DecidableEq, Repr

/-- abilities.py `Ability`: the immutable data record describing one ability. -/
structure Ability where
  id_name : String
  name : String
  ap_cost : Int
  range : Int
  damage_amount : Int
  damage_type : Option String
  target_type : TargetType
  descr : String
  effect_radius : Int
deriving DecidableEq, Repr

/-- engine.py `Entity`: the combat unit of the engine.  `eid` stands for the
Python object identity that `==` compares on entities; all remaining fields
are the attributes set in `Entity.__init__`. -/
structure Entity where
  eid : Nat
  x : Int
  y : Int
  char : Char
  name : String
  hp : Int
  max_hp : Int
  ap : Int
  max_ap : Int
  abilities : List Ability
  behavior : Option String
  entity_id : Option String
  is_alive : Bool
deriving DecidableEq, Repr

/-- engine.py `Entity.get_ability_by_name`. -/
def Entity.get_ability_by_name (e : Entity) (n : String) : Option Ability :=
  e.abilities.find? (fun ab => ab.name == n)

/-- engine.py `Entity.move(dx, dy, game_map)` (lines 43-66): pure version
returning the success flag and the (possibly moved) entity. -/
def Entity.move (e : Entity) (dx dy : Int) (game_map : GameMap) : Bool × Entity :=
  let new_x := e.x + dx
  let new_y := e.y + dy
  if !game_map.is_walkable new_x new_y then (false, e)
  else
    let current_height := game_map.get_height e.x e.y
    let target_height := game_map.get_height new_x new_y
    if target_height.gtInt MAX_MAP_HEIGHT_LEVEL then (false, e)
    else if Hgt.diffGt target_height current_height MAX_CLIMB_HEIGHT_DIFFERENCE then (false, e)
    else (true, { e with x := new_x, y := new_y })

/-- engine.py `Entity.take_damage(amount)` (lines 68-79): returns the
"defeated" flag and the updated entity.  A bare `return` in Python yields
`None`, which the one caller treats as falsy, hence `false` here. -/
def Entity.take_damage (e : Entity) (amount : Int) : Bool × Entity :=
  if !e.is_alive then (false, e)
  else
    let hp1 := e.hp - amount
    if hp1 ≤ 0 then (true, { e with hp := 0, is_alive := false, char := '%' })
    else (false, { e with hp := hp1 })

/-- A single apostrophe character, used inside log-message strings. -/
def apos : String := String.singleton (Char.ofNat 39)

/-- The validation chain of engine.py `Entity.attack` (lines 82-101):
`some msg` is the failure message of the first failing check, `none` means
all checks passed.  The `ability` argument is optional because Python callers
may pass `None`. -/
def Entity.attackCheck (a : Entity) (target : Entity) (ability : Option Ability) :
    Option String :=
  if !a.is_alive then some (a.name ++ " is defeated and cannot attack.")
  else
    match ability with
    | none => some "No ability specified for attack."
    | some ab =>
      if !(ab.target_type == TargetType.ENEMY || ab.target_type == TargetType.ANY_ENTITY) then
        some (ab.name ++ " cannot target entities.")
      else if a.ap < ab.ap_cost then some ("Not enough AP for " ++ ab.name ++ ".")
      else if manhattan_distance (a.x, a.y) (target.x, target.y) > ab.range then
        some (target.name ++ " is out of range for " ++ ab.name ++ ".")
      else if !target.is_alive then some (target.name ++ " is already defeated.")
      else none

/-- engine.py `Entity.attack(target, ability)` (lines 81-112), pure version:
returns (success, message, updated attacker, updated target).  When the Python
attacker and target are the same object the caller must merge the two returned
records (their changed fields are disjoint: `ap` versus `hp`/`is_alive`/`char`). -/
def Entity.attack (a : Entity) (target : Entity) (ability : Option Ability) :
    Bool × String × Entity × Entity :=
  match Entity.attackCheck a target ability with
  | some m => (false, m, a, target)
  | none =>
    match ability with
    | none => (false, "No ability specified for attack.", a, target)
    | some ab =>
      let a1 := { a with ap := a.ap - ab.ap_cost }
      let damage := ab.damage_amount
      let r := Entity.take_damage target damage
      let defeated := r.1
      let t1 := r.2
      let dt := ab.damage_type.getD "None"
      let base := a.name ++ " used " ++ ab.name ++ " on " ++ target.name ++ " for " ++
        toString damage ++ " " ++ dt ++ " damage."
      let message :=
        if defeated then base ++ " " ++ target.name ++ " was defeated!"
        else base ++ " " ++ target.name ++ " HP is now " ++ toString t1.hp ++ "."
      (true, message, a1, t1)

/-- engine.py `Entity.regenerate_ap`. -/
def Entity.regenerate_ap (e : Entity) : Entity :=
  { e with ap := e.max_ap }

/-! ## The abilities-era engine (pathfinding and ability execution)

`abilities.py`, `ai.py` and `game.py` run against a newer engine and entity
class (`engine.find_path`, `engine.get_blocking_entity_at`, entity attributes
`current_ap`, `defense`, `faction`, `is_dead`) whose definitions are not among
the source files; only their callers are.  Those missing pieces are modelled
from the spec below and are flagged as such; everything else in this section
is translated from `abilities.py`. -/

/-- Modelled from the spec: the newer `Entity` of spec section 3 that
`abilities.py` and `ai.py` operate on, with `current_ap`, `defense`, a
`faction` tag and an `is_dead` death flag.  Its class definition is not among
the source files.  `eid` again stands for object identity. -/
structure EntityX where
  eid : Nat
  name : String
  x : Int
  y : Int
  hp : Int
  max_hp : Int
  current_ap : Int
  max_ap : Int
  defense : Int
  faction : String
  is_dead : Bool
deriving DecidableEq, Repr

/-- Modelled from the spec: the state of the newer engine that
`Ability.execute` receives: the grid plus the entity roster (spec section 6
query surface).  No definition of this engine class is among the sources. -/
structure EngineX where
  game_map : GameMap
  entities : List EntityX
deriving DecidableEq, Repr

/-- Modelled from the spec: `get_blocking_entity_at(x, y, exclude_entity)`,
the occupancy query of the newer engine ("whether a tile is blocked and by
whom", spec section 6): the first live entity standing on the tile, ignoring
the excluded entity.  Its definition is not among the source files. -/
def EngineX.get_blocking_entity_at (eng : EngineX) (x y : Int)
    (exclude : Option Nat) : Option EntityX :=
  eng.entities.find? (fun e =>
    !e.is_dead && e.x == x && e.y == y && !(exclude == some e.eid))

/-- Modelled from the spec (section 4.4): one BFS step may enter a tile that
is valid, walkable, within the climbing limit from the current tile
(descending unconstrained), and not occupied by a live entity unless it is
the final goal tile. -/
def EngineX.canStep (eng : EngineX) (goal : Int × Int)
    (c n : Int × Int) : Bool :=
  eng.game_map.is_valid n.1 n.2 && eng.game_map.is_walkable n.1 n.2 &&
  !(Hgt.diffGt (eng.game_map.get_height n.1 n.2) (eng.game_map.get_height c.1 c.2)
      MAX_CLIMB_HEIGHT_DIFFERENCE) &&
  (n == goal || (eng.get_blocking_entity_at n.1 n.2 none).isNone)

/-- Modelled from the spec (section 4.4): 4-directional neighbours in the
fixed N, S, E, W iteration order. -/
def neighbors4 (p : Int × Int) : List (Int × Int) :=
  [(p.1, p.2 - 1), (p.1, p.2 + 1), (p.1 + 1, p.2), (p.1 - 1, p.2)]

/-- Walk the BFS parent map back from `cur` to `start`, accumulating the
path; fuelled because the parent list is unordered data. -/
def rebuildPath (start : Int × Int) (parent : List ((Int × Int) × (Int × Int))) :
    Nat → (Int × Int) → List (Int × Int) → Option (List (Int × Int))
  | 0, _, _ => none
  | fuel + 1, cur, acc =>
    if cur = start then some (start :: acc)
    else
      match parent.find? (fun pr => pr.1 == cur) with
      | none => none
      | some pr => rebuildPath start parent fuel pr.2 (cur :: acc)

/-- The fuelled BFS loop of the spec-modelled pathfinder: `queue` holds the
frontier, `visited` the discovered tiles, `parent` the discovery edges. -/
def bfsLoop (eng : EngineX) (start goal : Int × Int) :
    Nat → List (Int × Int) → List (Int × Int) →
    List ((Int × Int) × (Int × Int)) → Option (List (Int × Int))
  | 0, _, _, _ => none
  | _ + 1, [], _, _ => none
  | fuel + 1, c :: rest, visited, parent =>
    if c = goal then rebuildPath start parent (fuel + 2) goal []
    else
      let ns := (neighbors4 c).filter (fun n =>
        EngineX.canStep eng goal c n && !(visited.contains n))
      bfsLoop eng start goal fuel (rest ++ ns) (visited ++ ns)
        (parent ++ ns.map (fun n => (n, c)))

/-- Modelled from the spec (section 4.4): `engine.find_path(sx, sy, tx, ty)`,
an unweighted breadth-first search from the start tile to the goal tile,
inclusive of both; `none` when the goal is invalid, not walkable, or
unreachable.  `start == goal` returns the single-element path.  The pathfinder
definition is not among the source files. -/
def EngineX.find_path (eng : EngineX) (sx sy tx ty : Int) :
    Option (List (Int × Int)) :=
  let start := (sx, sy)
  let goal := (tx, ty)
  if !(eng.game_map.is_valid tx ty && eng.game_map.is_walkable tx ty) then none
  else if start = goal then some [start]
  else
    let fuel := (eng.game_map.width.toNat * eng.game_map.height.toNat) + 1
    bfsLoop eng start goal fuel [start] [start] []

/-- The movement branch of abilities.py `Ability.execute` (lines 46-64),
executed when `self.id_name == "move"`: resolve a path, bill `len(path) - 1`
AP against the actor's current AP and the ability's range, refuse an occupied
destination, and otherwise relocate the actor.  Returns the success flag, the
message, and the (possibly moved) actor; nothing else of the engine state is
written by this branch. -/
def Ability.executeMove (ab : Ability) (actor : EntityX) (target_pos : Int × Int)
    (engine : EngineX) : Bool × String × EntityX :=
  let tx := toString target_pos.1
  let ty := toString target_pos.2
  match engine.find_path actor.x actor.y target_pos.1 target_pos.2 with
  | none => (false, actor.name ++ " cannot find a path to (" ++ tx ++ "," ++ ty ++ ").", actor)
  | some path =>
    if path.length ≤ 1 then
      (false, actor.name ++ " cannot find a path to (" ++ tx ++ "," ++ ty ++ ").", actor)
    else
      let ap_cost_for_move : Int := (path.length : Int) - 1
      if actor.current_ap < ap_cost_for_move then
        (false, "Not enough AP for " ++ actor.name ++ " to move. Needs " ++
          toString ap_cost_for_move ++ ", has " ++ toString actor.current_ap ++ ".", actor)
      else if ap_cost_for_move > ab.range then
        (false, actor.name ++ " cannot move that far (" ++ toString ap_cost_for_move ++
          " steps) with " ++ ab.name ++ " (Max: " ++ toString ab.range ++ " steps).", actor)
      else
        match engine.get_blocking_entity_at target_pos.1 target_pos.2 (some actor.eid) with
        | some blocking =>
          (false, "Cannot move to (" ++ tx ++ "," ++ ty ++ "), tile is occupied by " ++
            blocking.name ++ ".", actor)
        | none =>
          let moved := { actor with
                         x := target_pos.1
                         y := target_pos.2
                         current_ap := actor.current_ap - ap_cost_for_move }
          (true, actor.name ++ " moves to (" ++ tx ++ "," ++ ty ++ ") using " ++
            toString ap_cost_for_move ++ " AP. AP left: " ++ toString moved.current_ap ++ ".",
            moved)

/-- Modelled from the spec (section 4.3): `take_damage` of the newer entity
class, whose definition is not among the source files: subtracts, clamps HP
at 0, and sets the death flag when HP reaches 0; no further damage once dead. -/
def EntityX.take_damage (e : EntityX) (amount : Int) : EntityX :=
  if e.is_dead then e
  else
    let hp1 := e.hp - amount
    if hp1 ≤ 0 then { e with hp := 0, is_dead := true }
    else { e with hp := hp1 }

/-- The per-target damage application of abilities.py `Ability.execute`
(lines 103-104): `actual_damage = max(0, self.damage_amount - target.defense)`
followed by `target.take_damage(actual_damage)`. -/
def Ability.applyDamageTo (ab : Ability) (target : EntityX) : EntityX :=
  let actual_damage := max 0 (ab.damage_amount - target.defense)
  EntityX.take_damage target actual_damage

/-! ## The engine.py `GameEngine` state machine

The engine's mutable object graph (entity objects shared between
`self.entities`, `self.turn_order` and `self.player`) is embedded as a store:
`entities : List Entity` keyed by `eid`, with `turn_order : List Nat` and
`player : Option Nat` holding eids.  `lookupE`/`setE` translate Python's
attribute reads and in-place writes; with the distinct objects the source
constructs, eids are distinct and this is exact. -/

/-- The engine state: the attributes set in `GameEngine.__init__`. -/
structure GameEngine where
  game_map : GameMap
  entities : List Entity
  player : Option Nat
  turn_order : List Nat
  current_turn_index : Nat
  game_state : String
  game_log : List String
deriving DecidableEq, Repr

/-- engine.py `self.MAX_LOG_MESSAGES = 20`. -/
def MAX_LOG_MESSAGES : Nat := 20

/-- engine.py `GameEngine.add_log_message`: append, evicting the oldest
message beyond the capacity. -/
def addLog (s : GameEngine) (m : String) : GameEngine :=
  let lg := s.game_log ++ [m]
  let lg2 := if lg.length > MAX_LOG_MESSAGES then lg.tail else lg
  { s with game_log := lg2 }

/-- Read an entity object out of the store by its identity. -/
def lookupE (store : List Entity) (i : Nat) : Option Entity :=
  store.find? (fun e => e.eid == i)

/-- Write an in-place mutation of one entity object back into the store. -/
def setE (store : List Entity) (e : Entity) : List Entity :=
  store.map (fun x => if x.eid == e.eid then e else x)

/-- The object `self.player` refers to.  In the source this reference always
dangles nowhere once set (entities are never removed from `self.entities`),
so the `none` case on a set `player` is unreachable there. -/
def playerEntity (s : GameEngine) : Option Entity :=
  match s.player with
  | some pid => lookupE s.entities pid
  | none => none

/-- engine.py `GameEngine.get_entities_at(x, y)`. -/
def GameEngine.get_entities_at (s : GameEngine) (x y : Int) : List Entity :=
  s.entities.filter (fun e => e.x == x && e.y == y && e.is_alive)

/-- engine.py `GameEngine.get_current_turn_entity`. -/
def currentTurnEntity (s : GameEngine) : Option Entity :=
  match s.turn_order[s.current_turn_index]? with
  | some i => lookupE s.entities i
  | none => none

/-- The test `not any(e for e in self.entities if e != self.player and
e.is_alive and e.behavior != "player_controlled")` used by the win checks. -/
def noEnemiesLeft (s : GameEngine) : Bool :=
  !(s.entities.any (fun e =>
    (match s.player with | some pid => e.eid != pid | none => true) &&
    e.is_alive && e.behavior != some "player_controlled"))

/-- The turn-announcement log message of `start_game` / `next_turn`. -/
def turnMsg (e : Entity) : String :=
  "--- " ++ e.name ++ apos ++ "s Turn (AP: " ++ toString e.ap ++ ") ---"

/-- engine.py `_setup_turn_order` lines 230-233: regenerate the AP of the
entity at the current initiative index, if any. -/
def regenCurrent (s : GameEngine) : GameEngine :=
  match currentTurnEntity s with
  | some ce => { s with entities := setE s.entities (Entity.regenerate_ap ce) }
  | none => s

/-- engine.py `_setup_turn_order` lines 221-227: the filtered initiative
order with the live player forced to index 0. -/
def setupOrderList (s : GameEngine) : List Nat :=
  let to1 := (s.entities.filter (fun e => e.is_alive)).map (fun e => e.eid)
  match playerEntity s with
  | some p =>
    if p.is_alive then p.eid :: (if to1.contains p.eid then to1.erase p.eid else to1)
    else to1
  | none => to1

/-- engine.py `GameEngine._setup_turn_order` (lines 221-244). -/
def setupTurnOrder (s : GameEngine) : GameEngine :=
  let to2 := setupOrderList s
  let s1 := { s with turn_order := to2, current_turn_index := 0 }
  if !to2.isEmpty then regenCurrent s1
  else
    match playerEntity s1 with
    | some p =>
      if !p.is_alive then { s1 with game_state := "game_over_player_lose" }
      else if p.is_alive && noEnemiesLeft s1 then { s1 with game_state := "game_over_player_win" }
      else s1
    | none =>
      if s1.entities.isEmpty then { s1 with game_state := "error_no_entities_loaded" }
      else s1

/-- engine.py lines 267-275 / 304-313: regenerate the new current entity's AP
and set the phase and log entry according to whether it is the player. -/
def beginTurn (s : GameEngine) (ce : Entity) : GameEngine :=
  let ce1 := Entity.regenerate_ap ce
  let s1 := { s with entities := setE s.entities ce1 }
  if s1.player == some ce1.eid then
    addLog { s1 with game_state := "player_turn" } (turnMsg ce1)
  else
    addLog { s1 with game_state := "npc_turn" } (turnMsg ce1)

/-- engine.py `GameEngine.start_game` (lines 247-278). -/
def startGame (s : GameEngine) : GameEngine :=
  if s.entities.isEmpty then { s with game_state := "error_no_entities_loaded" }
  else
    let s1 := setupTurnOrder s
    if s1.turn_order.isEmpty then
      match playerEntity s1 with
      | some p =>
        if !p.is_alive then { s1 with game_state := "game_over_player_lose" }
        else if p.is_alive && noEnemiesLeft s1 then { s1 with game_state := "game_over_player_win" }
        else { s1 with game_state := "error_engine_start" }
      | none => { s1 with game_state := "error_engine_start" }
    else
      match currentTurnEntity s1 with
      | some fe => beginTurn s1 fe
      | none => addLog s1 "Engine Start: Critical error, no entity for the first turn."

/-- The filtering of dead entities out of the initiative order at the top of
`next_turn` (line 288). -/
def aliveFilter (s : GameEngine) : List Nat :=
  s.turn_order.filter (fun i =>
    match lookupE s.entities i with
    | some e => e.is_alive
    | none => false)

/-- engine.py `next_turn` lines 292-300: the game-over resolution taken when
the filtered initiative order is empty. -/
def resolveEmptyTurnOrder (s : GameEngine) : GameEngine :=
  match playerEntity s with
  | some p =>
    if !p.is_alive then
      let s1 := if s.game_state != "game_over_player_lose" then
          addLog s "Player has been defeated! Game Over." else s
      { s1 with game_state := "game_over_player_lose" }
    else if p.is_alive && noEnemiesLeft s then
      let s1 := if s.game_state != "game_over_player_win" then
          addLog s "All enemies defeated! Victory!" else s
      { s1 with game_state := "game_over_player_win" }
    else { s with game_state := "game_over_unknown" }
  | none => { s with game_state := "game_over_unknown" }

/-- engine.py `GameEngine.next_turn` (lines 286-316). -/
def nextTurn (s : GameEngine) : GameEngine :=
  let to2 := aliveFilter s
  let s0 := { s with turn_order := to2 }
  if to2.isEmpty then
    resolveEmptyTurnOrder (addLog s0 "No entities left alive in turn order.")
  else
    let s1 := { s0 with current_turn_index := (s0.current_turn_index + 1) % to2.length }
    match currentTurnEntity s1 with
    | some ce => beginTurn s1 ce
    | none => addLog s1 "Next Turn: Error - No current entity after turn advance."

/-- `attacker.attack(target, ability)` executed against the store: on success
both mutated objects are written back; when attacker and target are the same
object the two disjoint field updates are merged into one record. -/
def attackOnStore (store : List Entity) (a t : Entity) (ability : Option Ability) :
    Bool × String × List Entity :=
  let r := Entity.attack a t ability
  if r.1 then
    let a1 := r.2.2.1
    let t1 := r.2.2.2
    if t.eid == a.eid then (true, r.2.1, setE store { t1 with ap := a1.ap })
    else (true, r.2.1, setE (setE store t1) a1)
  else (false, r.2.1, store)

/-- The log message of a successful towards-player NPC step. -/
def npcMovedMsg (n : String) : String := n ++ " moved towards player."

/-- The log message of a successful run-away NPC step. -/
def npcRanMsg (n : String) : String := n ++ " ran away from player."

/-- One NPC movement attempt of `run_npc_behavior`: if the destination tile is
unoccupied and `npc.move` succeeds, bill the move ability's AP cost, write the
entity back and log; `none` when no step happened. -/
def npcStep (s : GameEngine) (npc : Entity) (mab : Ability) (dx dy : Int)
    (msg : String) : Option GameEngine :=
  if (s.get_entities_at (npc.x + dx) (npc.y + dy)).isEmpty then
    let r := Entity.move npc dx dy s.game_map
    if r.1 then
      let npc1 := { r.2 with ap := r.2.ap - mab.ap_cost }
      some (addLog { s with entities := setE s.entities npc1 } msg)
    else none
  else none

/-- The Y-axis movement attempt of `run_npc_behavior`, shared by both
behaviors: taken only when no X step happened (`not moved_in_x` / `not moved`)
and AP still covers the move ability's cost. -/
def npcTryY (s : GameEngine) (npc : Entity) (mab : Ability) (dy : Int)
    (msg : String) : GameEngine :=
  if dy != 0 && npc.ap ≥ mab.ap_cost then
    match npcStep s npc mab 0 dy msg with
    | some s1 => s1
    | none => s
  else s

/-- engine.py `run_npc_behavior`, "move_towards_player" branch (lines
347-376).  After a successful X step the Y attempt is skipped
(`moved_in_x`), and the low-AP early return leaves the same state. -/
def towardsDelta (a b : Int) : Int :=
  if a < b then 1 else if a > b then -1 else 0

def npcMoveTowards (s : GameEngine) (npc pl : Entity) (mab : Ability) : GameEngine :=
  if towardsDelta npc.x pl.x != 0 then
    match npcStep s npc mab (towardsDelta npc.x pl.x) 0 (npcMovedMsg npc.name) with
    | some s1 => s1
    | none => npcTryY s npc mab (towardsDelta npc.y pl.y) (npcMovedMsg npc.name)
  else npcTryY s npc mab (towardsDelta npc.y pl.y) (npcMovedMsg npc.name)

/-- engine.py `run_npc_behavior`, "run_away_from_player" branch (lines
378-410), entered only when the distance to the player is below 8. -/
def awayDx (s : GameEngine) (npc pl : Entity) : Int :=
  if npc.x < pl.x then -1 else if npc.x > pl.x then 1
  else if s.game_map.is_walkable (npc.x + 1) npc.y &&
          (s.get_entities_at (npc.x + 1) npc.y).isEmpty then 1 else -1

def awayDy (s : GameEngine) (npc pl : Entity) : Int :=
  if npc.y < pl.y then -1 else if npc.y > pl.y then 1
  else if s.game_map.is_walkable npc.x (npc.y + 1) &&
          (s.get_entities_at npc.x (npc.y + 1)).isEmpty then 1 else -1

def npcRunAway (s : GameEngine) (npc pl : Entity) (mab : Ability) : GameEngine :=
  if awayDx s npc pl != 0 then
    match npcStep s npc mab (awayDx s npc pl) 0 (npcRanMsg npc.name) with
    | some s1 => s1
    | none => npcTryY s npc mab (awayDy s npc pl) (npcRanMsg npc.name)
  else npcTryY s npc mab (awayDy s npc pl) (npcRanMsg npc.name)

/-- engine.py `run_npc_behavior`, movement phase (lines 342-411). -/
def npcMovePhase (s : GameEngine) (npc : Entity) : GameEngine :=
  if npc.ap > 0 then
    match Entity.get_ability_by_name npc "Move" with
    | some mab =>
      if npc.ap ≥ mab.ap_cost then
        match playerEntity s with
        | some pl =>
          if npc.behavior == some "move_towards_player" then
            if manhattan_distance (npc.x, npc.y) (pl.x, pl.y) > 1 then
              npcMoveTowards s npc pl mab
            else s
          else if npc.behavior == some "run_away_from_player" then
            if manhattan_distance (npc.x, npc.y) (pl.x, pl.y) < 8 then
              npcRunAway s npc pl mab
            else s
          else s
        | none => s
      else s
    | none => s
  else s

/-- engine.py lines 336-338: after an NPC attack, flip to the losing
game-over state (once) if the player is no longer alive. -/
def checkPlayerDeadLose (s : GameEngine) : GameEngine :=
  match playerEntity s with
  | some p =>
    if !p.is_alive && s.game_state != "game_over_player_lose" then
      addLog { s with game_state := "game_over_player_lose" }
        "Player has been defeated! Game Over."
    else s
  | none => s

/-- engine.py `GameEngine.run_npc_behavior` (lines 319-412). -/
def run_npc_behavior (s : GameEngine) (npcEid : Nat) : GameEngine :=
  match playerEntity s with
  | none => s
  | some pl =>
    if !pl.is_alive then s
    else
      match lookupE s.entities npcEid with
      | none => s
      | some npc =>
        if npc.ap == 0 || !npc.is_alive then s
        else
          let atk := npc.abilities.find? (fun ab =>
            ab.target_type == TargetType.ENEMY && npc.ap ≥ ab.ap_cost &&
            manhattan_distance (npc.x, npc.y) (pl.x, pl.y) ≤ ab.range)
          match atk with
          | some ab =>
            let r := attackOnStore s.entities npc pl (some ab)
            let s1 := addLog { s with entities := r.2.2 } r.2.1
            let s2 := checkPlayerDeadLose s1
            match lookupE s2.entities npcEid with
            | none => s2
            | some npc1 =>
              if npc1.ap == 0 || !npc1.is_alive then s2
              else npcMovePhase s2 npc1
          | none => npcMovePhase s npc

/-- The early-return test of `update` (line 416). -/
def isTerminalState (st : String) : Bool :=
  st == "game_over_player_win" || st == "game_over_player_lose" ||
  st == "error_no_entities_loaded" || st == "critical_error_next_turn"

/-- engine.py `update` lines 445-450: the closing win/lose re-evaluation. -/
def gameOverOverride (s : GameEngine) : GameEngine :=
  match playerEntity s with
  | some p =>
    if !p.is_alive && s.game_state != "game_over_player_lose" then
      addLog { s with game_state := "game_over_player_lose" }
        "Player has been defeated! Game Over."
    else if p.is_alive && noEnemiesLeft s && s.game_state != "game_over_player_win" then
      addLog { s with game_state := "game_over_player_win" }
        "All enemies defeated! Victory!"
    else s
  | none => s

/-- engine.py `GameEngine.update` (lines 414-450). -/
def update (s : GameEngine) : GameEngine :=
  if isTerminalState s.game_state then s
  else
    match currentTurnEntity s with
    | none =>
      nextTurn (addLog s "Engine Update: No current entity. Advancing turn to check state.")
    | some ce =>
      if !ce.is_alive then
        nextTurn (addLog s ("Engine Update: " ++ ce.name ++ " is defeated. Advancing turn."))
      else
        let s1 :=
          if s.game_state == "npc_turn" then
            if !(s.player == some ce.eid) then nextTurn (run_npc_behavior s ce.eid)
            else { s with game_state := "player_turn" }
          else s
        gameOverOverride s1

/-- engine.py `GameEngine.end_player_turn` (lines 553-559). -/
def end_player_turn (s : GameEngine) : GameEngine :=
  if s.game_state == "player_turn" then
    let s1 := match playerEntity s with
      | some p => if p.is_alive then addLog s (p.name ++ " ends turn.") else s
      | none => s
    nextTurn s1
  else s

/-- The entry guard of `handle_player_action` (line 457): no player, or the
current initiative entity is not the player object, or the phase is not the
player's turn. -/
def hpaGuardFail (s : GameEngine) : Bool :=
  match s.player with
  | none => true
  | some pid =>
    (match currentTurnEntity s with
     | some ce => ce.eid != pid
     | none => true) || s.game_state != "player_turn"

/-- engine.py `handle_player_action` lines 521-527: the win/lose checks run
right after a successful player attack. -/
def hpaWinLoseCheck (s : GameEngine) : GameEngine :=
  if noEnemiesLeft s then
    let s1 := if s.game_state != "game_over_player_win" then
        addLog s "All enemies defeated! Victory!" else s
    { s1 with game_state := "game_over_player_win" }
  else
    match playerEntity s with
    | some p =>
      if !p.is_alive then
        let s1 := if s.game_state != "game_over_player_lose" then
            addLog s "Player has been defeated! Game Over." else s
        { s1 with game_state := "game_over_player_lose" }
      else s
    | none => s

/-- engine.py `handle_player_action` lines 456-542: everything up to the
`if action_taken:` epilogue.  Returns `(action_taken, message, state)`.
On the `"move"` path the source indexes `target_pos` unchecked, so a `none`
target there would raise in Python; the embedding returns a plain failure. -/
def handlePlayerActionCore (s : GameEngine) (action_type : String)
    (target_pos : Option (Int × Int)) (ability_to_use : Option Ability) :
    Bool × String × GameEngine :=
  if hpaGuardFail s then (false, "Not player" ++ apos ++ "s turn or invalid state.", s)
  else
    match currentTurnEntity s with
    | none => (false, "Not player" ++ apos ++ "s turn or invalid state.", s)
    | some p =>
      if !p.is_alive then
        (false, "Player is defeated.", addLog s "Player is defeated and cannot take actions.")
      else if action_type == "move" then
        match Entity.get_ability_by_name p "Move" with
        | none => (false, "Player does not have the " ++ apos ++ "Move" ++ apos ++ " ability.", s)
        | some mab =>
          if p.ap ≥ mab.ap_cost then
            match target_pos with
            | none => (false, "", s)
            | some tp =>
              let dx := tp.1 - p.x
              let dy := tp.2 - p.y
              if |dx| + |dy| == 1 then
                let r := Entity.move p dx dy s.game_map
                if r.1 then
                  let p1 := { r.2 with ap := r.2.ap - mab.ap_cost }
                  (true, p.name ++ " moved to (" ++ toString tp.1 ++ "," ++ toString tp.2 ++ ").",
                    { s with entities := setE s.entities p1 })
                else (false, "Invalid move target or path blocked.", s)
              else (false, "Move target is not adjacent.", s)
          else
            (false, "Player has not enough AP to move (needs " ++ toString mab.ap_cost ++ ").", s)
      else if action_type == "ability" then
        match target_pos, ability_to_use with
        | some tp, some ab =>
          if p.ap < ab.ap_cost then
            (false, "Not enough AP for " ++ ab.name ++ " (needs " ++ toString ab.ap_cost ++ ").", s)
          else
            match ab.target_type with
            | TargetType.TILE =>
              if ab.name == "Move" then
                (false, apos ++ "Move" ++ apos ++ " ability should be handled via " ++
                  apos ++ "move" ++ apos ++ " action type.", s)
              else
                let p1 := { p with ap := p.ap - ab.ap_cost }
                (true, p.name ++ " used " ++ ab.name ++ " on tile (" ++ toString tp.1 ++
                  ", " ++ toString tp.2 ++ ").", { s with entities := setE s.entities p1 })
            | TargetType.SELF =>
              let p1 := { p with ap := p.ap - ab.ap_cost }
              (true, p.name ++ " used " ++ ab.name ++ " on self.",
                { s with entities := setE s.entities p1 })
            | tt =>
              let targets := s.get_entities_at tp.1 tp.2
              let target :=
                if tt == TargetType.ENEMY then targets.find? (fun t => t.eid != p.eid)
                else if tt == TargetType.ALLY then targets.find? (fun t => t.eid == p.eid)
                else targets.head?
              match target with
              | some t =>
                if ab.damage_amount > 0 then
                  let r := attackOnStore s.entities p t (some ab)
                  if r.1 then (true, r.2.1, hpaWinLoseCheck { s with entities := r.2.2 })
                  else (false, "", s)
                else
                  let p1 := { p with ap := p.ap - ab.ap_cost }
                  (true, p.name ++ " used " ++ ab.name ++ " on " ++ t.name ++ ".",
                    { s with entities := setE s.entities p1 })
              | none => (false, "No valid target for " ++ ab.name ++ " at that position.", s)
        | _, _ => (false, "Ability action requires target position and ability object.", s)
      else (false, "", s)

/-- engine.py `GameEngine.handle_player_action` (lines 456-551): the body
plus the `if action_taken:` epilogue, which logs the message and ends the
player's turn automatically when their AP hit 0. -/
def handle_player_action (s : GameEngine) (action_type : String)
    (target_pos : Option (Int × Int)) (ability_to_use : Option Ability) :
    Bool × String × GameEngine :=
  let c := handlePlayerActionCore s action_type target_pos ability_to_use
  if c.1 then
    let s2 := addLog c.2.2 c.2.1
    match playerEntity s2 with
    | some p =>
      if p.ap == 0 && s2.game_state == "player_turn" && p.is_alive then
        (true, c.2.1, end_player_turn (addLog s2 (p.name ++ " is out of AP. Ending turn.")))
      else (true, c.2.1, s2)
    | none => (true, c.2.1, s2)
  else (false, c.2.1, c.2.2)

/-! ## Match setup from map data

`initialize_entities_from_map_data` reads entity definitions from JSON files
through `load_entity_data`; the embedding receives the successfully parsed
definitions and the ability registry as arguments and performs the same loop,
player detection, defaulting and error handling as engine.py lines 162-219. -/

/-- The fields of a parsed entity-definition JSON record used by
`initialize_entities_from_map_data`. -/
structure EntityDefData where
  char : Char
  name : String
  hp : Int
  max_hp : Option Int
  ap : Int
  max_ap : Option Int
  abilities : List String
  behavior : Option String
  descr : String
deriving DecidableEq, Repr

/-- One entry of the map data's entity list: `{"id": ..., "x": ..., "y": ...}`. -/
structure Placement where
  pid : String
  x : Int
  y : Int
deriving DecidableEq, Repr

/-- engine.py lines 179-183: append `.json` to the definition id unless
already present.  Python's `str.endswith` is expressed as a suffix test on
the character list (the built-in `String.endsWith` does not reduce in the
kernel). -/
def entityDefFile (pid : String) : String :=
  if (".json".data).isSuffixOf pid.data then pid else pid ++ ".json"

/-- `Entity.__init__` as called from `initialize_entities_from_map_data`:
defaults for max HP/AP and resolution of ability names through the registry
(unknown names are skipped with a warning in the source). -/
def buildEntity (registry : List (String × Ability)) (eid : Nat) (x y : Int)
    (d : EntityDefData) (entId : String) : Entity :=
  { eid := eid, x := x, y := y, char := d.char, name := d.name,
    hp := d.hp, max_hp := d.max_hp.getD d.hp, ap := d.ap, max_ap := d.max_ap.getD d.ap,
    abilities := d.abilities.filterMap (fun n =>
      (registry.find? (fun pr => pr.1 == n)).map (fun pr => pr.2)),
    behavior := d.behavior, entity_id := some entId, is_alive := true }

/-- engine.py `GameEngine.initialize_entities_from_map_data` (lines 162-219),
with the file loads replaced by lookups in the given definition table.
Entities whose definitions are missing are skipped; the first entity whose
behavior is "player_controlled" or whose id is "player_char" becomes the
player; with no such entity the FIRST loaded entity is silently promoted to
player (lines 208-210). -/
def initEntitiesFromMapData (defs : List (String × EntityDefData))
    (registry : List (String × Ability)) (placements : List Placement)
    (s : GameEngine) : GameEngine :=
  let s0 := { s with entities := [], player := none }
  if placements.isEmpty then { s0 with game_state := "error_no_entities_in_map" }
  else
    let loaded := placements.enum.filterMap (fun pr =>
      match defs.find? (fun d => d.1 == entityDefFile pr.2.pid) with
      | some d => some (buildEntity registry pr.1 pr.2.x pr.2.y d.2 pr.2.pid)
      | none => none)
    let pid? := (loaded.find? (fun e =>
      e.behavior == some "player_controlled" || e.entity_id == some "player_char")).map
      (fun e => e.eid)
    let s1 := { s0 with entities := loaded, player := pid? }
    if pid?.isNone && !loaded.isEmpty then
      setupTurnOrder { s1 with player := (loaded.head?).map (fun e => e.eid) }
    else if loaded.isEmpty then { s1 with game_state := "error_no_entities_loaded" }
    else setupTurnOrder s1

/-! ## Store lemmas and the phase invariant -/

/-- An entity found by identity has that identity. -/
theorem lookupE_eid {store : List Entity} {i : Nat} {e : Entity}
    (h : lookupE store i = some e) : e.eid = i := by
  have := List.find?_some h
  simpa using this

/-- An entity found by identity is in the store. -/
theorem lookupE_mem {store : List Entity} {i : Nat} {e : Entity}
    (h : lookupE store i = some e) : e ∈ store :=
  List.mem_of_find?_eq_some h

/-- A write through `setE` is seen by a read of the same identity, provided
that identity is present in the store. -/
theorem lookupE_setE_self {store : List Entity} {i : Nat} {e e' : Entity}
    (h : lookupE store i = some e) (he : e'.eid = i) :
    lookupE (setE store e') i = some e' := by
  induction store with
  | nil => simp [lookupE] at h
  | cons x xs ih =>
    by_cases hx : x.eid = i
    · simp [lookupE, setE, List.find?, he, hx]
    · have hx2 : (x.eid == i) = false := by simp [hx]
      have hx3 : (x.eid == e'.eid) = false := by simp [he, hx]
      simp only [lookupE, List.find?, hx2] at h
      simp only [setE, List.map, hx3, if_neg, Bool.false_eq_true, if_false]
      simp only [lookupE, List.find?, hx2]
      exact ih h

/-- A write through `setE` is invisible to reads of other identities. -/
theorem lookupE_setE_ne {store : List Entity} {i : Nat} {e' : Entity}
    (hne : e'.eid ≠ i) : lookupE (setE store e') i = lookupE store i := by
  induction store with
  | nil => simp [lookupE, setE]
  | cons x xs ih =>
    by_cases hx : x.eid = e'.eid
    · have h1 : (x.eid == e'.eid) = true := by simp [hx]
      have h2 : (e'.eid == i) = false := by simp [hne]
      have h3 : (x.eid == i) = false := by simp [hx, hne]
      simp only [lookupE, setE, List.map, h1, if_true, List.find?, h2, h3]
      exact ih
    · have h1 : (x.eid == e'.eid) = false := by simp [hx]
      simp only [lookupE, setE, List.map, h1, Bool.false_eq_true, if_false, List.find?]
      cases hxi : (x.eid == i) with
      | true => rfl
      | false => exact ih

/-- `setE` preserves the list of identities in the store. -/
theorem eidMap_setE (store : List Entity) (e' : Entity) :
    (setE store e').map (fun e => e.eid) = store.map (fun e => e.eid) := by
  induction store with
  | nil => rfl
  | cons x xs ih =>
    by_cases hx : x.eid = e'.eid
    · simp [setE, List.map, hx] at ih ⊢
      simpa [hx] using ih
    · have h1 : (x.eid == e'.eid) = false := by simp [hx]
      simp [setE, List.map, h1] at ih ⊢
      exact ih

/-- With distinct identities, a member of the store is exactly what a read of
its identity returns. -/
theorem lookupE_of_mem_nodup {store : List Entity} {e : Entity}
    (hn : (store.map (fun x => x.eid)).Nodup) (hm : e ∈ store) :
    lookupE store e.eid = some e := by
  induction store with
  | nil => simp at hm
  | cons x xs ih =>
    rw [List.map_cons] at hn
    have hn2 := List.nodup_cons.mp hn
    rcases List.mem_cons.mp hm with rfl | hm2
    · simp [lookupE, List.find?]
    · by_cases hx : x.eid = e.eid
      · exfalso
        have hx2 : e.eid ∈ xs.map (fun x => x.eid) := List.mem_map_of_mem _ hm2
        exact hn2.1 (hx ▸ hx2)
      · have h1 : (x.eid == e.eid) = false := by simp [hx]
        simp only [lookupE, List.find?, h1]
        exact ih hn2.2 hm2

/-- The entity at the current initiative index is the live player. -/
def currentLivePlayerB (s : GameEngine) : Bool :=
  match currentTurnEntity s with
  | some e => s.player == some e.eid && e.is_alive
  | none => false

/-- The entity at the current initiative index is a live non-player. -/
def currentLiveNpcB (s : GameEngine) : Bool :=
  match currentTurnEntity s with
  | some e => !(s.player == some e.eid) && e.is_alive
  | none => false

/-- The phase part of the spec's turn-engine invariant, in the directions the
code maintains: whenever the phase is the player's turn the current initiative
entity is the live player, and whenever it is the NPC turn the current
initiative entity is a live non-player. -/
def PhaseInv (s : GameEngine) : Prop :=
  (s.game_state = "player_turn" → currentLivePlayerB s = true) ∧
  (s.game_state = "npc_turn" → currentLiveNpcB s = true)

/-- Well-formedness of the store: entity objects have distinct identities,
which is automatic for the distinct Python objects the source constructs. -/
def WF (s : GameEngine) : Prop :=
  (s.entities.map (fun e => e.eid)).Nodup

/-- Reachability by the turn engine's public operations, as enumerated by the
claim: `start_game`, `next_turn`, `handle_player_action` and `update`. -/
inductive Reach : GameEngine → GameEngine → Prop where
  | refl (s : GameEngine) : Reach s s
  | stepStart {a b : GameEngine} : Reach a b → Reach a (startGame b)
  | stepNext {a b : GameEngine} : Reach a b → Reach a (nextTurn b)
  | stepUpdate {a b : GameEngine} : Reach a b → Reach a (update b)
  | stepAction {a b : GameEngine} (action_type : String)
      (target_pos : Option (Int × Int)) (ability_to_use : Option Ability) :
      Reach a b → Reach a (handle_player_action b action_type target_pos ability_to_use).2.2

theorem currentTurnEntity_addLog (s : GameEngine) (m : String) :
    currentTurnEntity (addLog s m) = currentTurnEntity s := rfl

theorem game_state_addLog (s : GameEngine) (m : String) :
    (addLog s m).game_state = s.game_state := rfl

theorem player_addLog (s : GameEngine) (m : String) :
    (addLog s m).player = s.player := rfl

theorem entities_addLog (s : GameEngine) (m : String) :
    (addLog s m).entities = s.entities := rfl

theorem phaseInv_addLog {s : GameEngine} (m : String) (h : PhaseInv s) :
    PhaseInv (addLog s m) := by
  constructor
  · intro hg
    have := h.1 hg
    simpa [currentLivePlayerB, currentTurnEntity, addLog] using this
  · intro hg
    have := h.2 hg
    simpa [currentLiveNpcB, currentTurnEntity, addLog] using this

theorem currentLivePlayerB_of {s : GameEngine} {e : Entity}
    (hc : currentTurnEntity s = some e) (hp : (s.player == some e.eid) = true)
    (ha : e.is_alive = true) : currentLivePlayerB s = true := by
  unfold currentLivePlayerB
  rw [hc]
  simp [hp, ha]

theorem currentLiveNpcB_of {s : GameEngine} {e : Entity}
    (hc : currentTurnEntity s = some e) (hp : (s.player == some e.eid) = false)
    (ha : e.is_alive = true) : currentLiveNpcB s = true := by
  unfold currentLiveNpcB
  rw [hc]
  simp [hp, ha]


/-- Any state whose phase is neither turn phase satisfies the phase
invariant vacuously. -/
theorem phaseInv_of_state_eq {s : GameEngine} (gs : String) (h : s.game_state = gs)
    (h1 : gs ≠ "player_turn") (h2 : gs ≠ "npc_turn") : PhaseInv s :=
  ⟨fun hg => absurd (h.symm.trans hg) h1, fun hg => absurd (h.symm.trans hg) h2⟩

/-- `beginTurn` establishes the phase invariant whenever the entity it is
given is the current initiative entity and is alive. -/
theorem phaseInv_beginTurn {s : GameEngine} {ce : Entity}
    (hc : currentTurnEntity s = some ce) (ha : ce.is_alive = true) :
    PhaseInv (beginTurn s ce) := by
  unfold currentTurnEntity at hc
  cases h1 : s.turn_order[s.current_turn_index]? with
  | none => rw [h1] at hc; exact absurd hc (by simp)
  | some i =>
    rw [h1] at hc
    have heid : (Entity.regenerate_ap ce).eid = i := by
      simpa [Entity.regenerate_ap] using lookupE_eid hc
    have hself : lookupE (setE s.entities (Entity.regenerate_ap ce)) i
        = some (Entity.regenerate_ap ce) := lookupE_setE_self hc heid
    have hcur : ∀ gs m, currentTurnEntity
        (addLog { s with entities := setE s.entities (Entity.regenerate_ap ce),
                         game_state := gs } m) = some (Entity.regenerate_ap ce) := by
      intro gs m
      unfold currentTurnEntity addLog
      simpa [h1] using hself
    have hal : (Entity.regenerate_ap ce).is_alive = true := by
      simpa [Entity.regenerate_ap] using ha
    unfold beginTurn
    dsimp only
    by_cases hp : (s.player == some (Entity.regenerate_ap ce).eid) = true
    · rw [if_pos hp]
      constructor
      · intro _
        exact currentLivePlayerB_of (hcur "player_turn" _) (by exact hp) hal
      · intro hg
        exact absurd (show ("player_turn" : String) = "npc_turn" from hg) (by decide)
    · have hp2 : (s.player == some (Entity.regenerate_ap ce).eid) = false := by
        simpa using hp
      rw [if_neg hp]
      constructor
      · intro hg
        exact absurd (show ("npc_turn" : String) = "player_turn" from hg) (by decide)
      · intro _
        exact currentLiveNpcB_of (hcur "npc_turn" _) hp2 hal

/-- The game-over resolution of an empty initiative order always leaves a
phase other than `player_turn` / `npc_turn`, so the phase invariant holds. -/
theorem phaseInv_resolveEmptyTurnOrder (s : GameEngine) :
    PhaseInv (resolveEmptyTurnOrder s) := by
  unfold resolveEmptyTurnOrder
  split
  · split
    · exact phaseInv_of_state_eq "game_over_player_lose" rfl (by decide) (by decide)
    · split
      · exact phaseInv_of_state_eq "game_over_player_win" rfl (by decide) (by decide)
      · exact phaseInv_of_state_eq "game_over_unknown" rfl (by decide) (by decide)
  · exact phaseInv_of_state_eq "game_over_unknown" rfl (by decide) (by decide)

/-- Members of the filtered initiative order look up to live entities. -/
theorem aliveFilter_lookup {s : GameEngine} {i : Nat} (hi : i ∈ aliveFilter s) :
    ∃ ce, lookupE s.entities i = some ce ∧ ce.is_alive = true := by
  have hi2 := hi
  simp only [aliveFilter, List.mem_filter] at hi2
  have hp := hi2.2
  cases hl : lookupE s.entities i with
  | none => rw [hl] at hp; simp at hp
  | some ce =>
    rw [hl] at hp
    exact ⟨ce, rfl, by simpa using hp⟩

/-- `next_turn` establishes the phase invariant from any state. -/
theorem phaseInv_nextTurn (s : GameEngine) : PhaseInv (nextTurn s) := by
  unfold nextTurn
  dsimp only
  by_cases he : (aliveFilter s).isEmpty = true
  · rw [if_pos he]
    exact phaseInv_resolveEmptyTurnOrder _
  · rw [if_neg he]
    have hlen : 0 < (aliveFilter s).length := by
      cases h : aliveFilter s with
      | nil => rw [h] at he; simp at he
      | cons a l => simp [h]
    split
    · next ce hceq =>
      apply phaseInv_beginTurn hceq
      unfold currentTurnEntity at hceq
      dsimp only at hceq
      have hidx : (s.current_turn_index + 1) % (aliveFilter s).length < (aliveFilter s).length :=
        Nat.mod_lt _ hlen
      rw [List.getElem?_eq_getElem hidx] at hceq
      dsimp only at hceq
      have hmem : (aliveFilter s)[(s.current_turn_index + 1) % (aliveFilter s).length] ∈
          aliveFilter s := List.getElem_mem hidx
      rcases aliveFilter_lookup hmem with ⟨ce2, hl2, ha2⟩
      rw [hl2] at hceq
      cases hceq
      exact ha2
    · next hceq =>
      exfalso
      unfold currentTurnEntity at hceq
      dsimp only at hceq
      have hidx : (s.current_turn_index + 1) % (aliveFilter s).length < (aliveFilter s).length :=
        Nat.mod_lt _ hlen
      rw [List.getElem?_eq_getElem hidx] at hceq
      dsimp only at hceq
      have hmem : (aliveFilter s)[(s.current_turn_index + 1) % (aliveFilter s).length] ∈
          aliveFilter s := List.getElem_mem hidx
      rcases aliveFilter_lookup hmem with ⟨ce2, hl2, _⟩
      rw [hl2] at hceq
      cases hceq

/-- Every identity in the freshly built initiative order belongs to a live
entity of the store. -/
theorem setupOrderList_mem {s : GameEngine} {i : Nat} (hi : i ∈ setupOrderList s) :
    ∃ e, e ∈ s.entities ∧ e.is_alive = true ∧ e.eid = i := by
  have hto1 : ∀ j, j ∈ (s.entities.filter (fun e => e.is_alive)).map (fun e => e.eid) →
      ∃ e, e ∈ s.entities ∧ e.is_alive = true ∧ e.eid = j := by
    intro j hj
    rcases List.mem_map.mp hj with ⟨e, he, heq⟩
    have hf := List.mem_filter.mp he
    exact ⟨e, hf.1, hf.2, heq⟩
  unfold setupOrderList at hi
  dsimp only at hi
  cases hpe : playerEntity s with
  | none =>
    rw [hpe] at hi
    dsimp only at hi
    exact hto1 i hi
  | some p =>
    rw [hpe] at hi
    dsimp only at hi
    by_cases hal : p.is_alive = true
    · rw [if_pos hal] at hi
      rcases List.mem_cons.mp hi with rfl | hi2
      · have hmem : p ∈ s.entities := by
          unfold playerEntity at hpe
          cases hsp : s.player with
          | none => rw [hsp] at hpe; cases hpe
          | some pid => rw [hsp] at hpe; exact lookupE_mem hpe
        exact ⟨p, hmem, hal, rfl⟩
      · by_cases hct : ((s.entities.filter (fun e => e.is_alive)).map
            (fun e => e.eid)).contains p.eid = true
        · rw [if_pos hct] at hi2
          exact hto1 i (List.erase_subset _ _ hi2)
        · rw [if_neg hct] at hi2
          exact hto1 i hi2
    · rw [if_neg hal] at hi
      exact hto1 i hi

/-- With distinct identities, the current initiative entity right after
`_setup_turn_order` rebuilt a nonempty order is a live entity. -/
theorem setupTurnOrder_current {s : GameEngine} (hwf : WF s) :
    (setupTurnOrder s).turn_order = [] ∨
    ∃ fe, currentTurnEntity (setupTurnOrder s) = some fe ∧ fe.is_alive = true := by
  unfold setupTurnOrder
  dsimp only
  split
  · next hcond =>
    right
    have hlen : 0 < (setupOrderList s).length := by
      cases h : setupOrderList s with
      | nil => rw [h] at hcond; simp at hcond
      | cons a l => simp [h]
    have hj : (setupOrderList s)[0]? = some ((setupOrderList s)[0]) :=
      List.getElem?_eq_getElem hlen
    have hjm : (setupOrderList s)[0] ∈ setupOrderList s := List.getElem_mem hlen
    rcases setupOrderList_mem hjm with ⟨e, hem, heal, heid⟩
    have hle : lookupE s.entities ((setupOrderList s)[0]) = some e := by
      rw [← heid]
      exact lookupE_of_mem_nodup hwf hem
    have hc1 : currentTurnEntity
        { s with turn_order := setupOrderList s, current_turn_index := 0 } = some e := by
      unfold currentTurnEntity
      dsimp only
      rw [hj]
      exact hle
    unfold regenCurrent
    rw [hc1]
    refine ⟨Entity.regenerate_ap e, ?_, by simpa [Entity.regenerate_ap] using heal⟩
    unfold currentTurnEntity
    dsimp only
    rw [hj]
    exact lookupE_setE_self hle (by simpa [Entity.regenerate_ap] using heid)
  · next hcond =>
    left
    have hnil : setupOrderList s = [] := by
      cases h : (setupOrderList s).isEmpty with
      | true => exact List.isEmpty_iff.mp h
      | false => rw [h] at hcond; simp at hcond
    split
    · split
      · exact hnil
      · split
        · exact hnil
        · exact hnil
    · split
      · exact hnil
      · exact hnil

/-- `start_game` establishes the phase invariant from any well-formed state. -/
theorem phaseInv_startGame (s : GameEngine) (hwf : WF s) : PhaseInv (startGame s) := by
  unfold startGame
  dsimp only
  split
  · exact phaseInv_of_state_eq "error_no_entities_loaded" rfl (by decide) (by decide)
  · split
    · split
      · split
        · exact phaseInv_of_state_eq "game_over_player_lose" rfl (by decide) (by decide)
        · split
          · exact phaseInv_of_state_eq "game_over_player_win" rfl (by decide) (by decide)
          · exact phaseInv_of_state_eq "error_engine_start" rfl (by decide) (by decide)
      · exact phaseInv_of_state_eq "error_engine_start" rfl (by decide) (by decide)
    · next hne =>
      split
      · next fe hceq =>
        rcases setupTurnOrder_current hwf with hL | ⟨fe2, hc2, ha2⟩
        · exact absurd (by simp [hL]) hne
        · rw [hceq] at hc2
          cases hc2
          exact phaseInv_beginTurn hceq ha2
      · next hceq =>
        rcases setupTurnOrder_current hwf with hL | ⟨fe2, hc2, ha2⟩
        · exact absurd (by simp [hL]) hne
        · rw [hceq] at hc2
          cases hc2

/-- The closing win/lose re-evaluation of `update` preserves the phase
invariant: it either leaves the state alone or moves to a game-over phase. -/
theorem phaseInv_gameOverOverride {s : GameEngine} (h : PhaseInv s) :
    PhaseInv (gameOverOverride s) := by
  unfold gameOverOverride
  split
  · split
    · exact phaseInv_of_state_eq "game_over_player_lose" rfl (by decide) (by decide)
    · split
      · exact phaseInv_of_state_eq "game_over_player_win" rfl (by decide) (by decide)
      · exact h
  · exact h

/-- `update` preserves the phase invariant. -/
theorem phaseInv_update (s : GameEngine) (h : PhaseInv s) : PhaseInv (update s) := by
  unfold update
  dsimp only
  split
  · exact h
  · split
    · exact phaseInv_nextTurn _
    · next ce hceq =>
      split
      · exact phaseInv_nextTurn _
      · next hal =>
        apply phaseInv_gameOverOverride
        split
        · split
          · exact phaseInv_nextTurn _
          · next hpeq =>
            have hal2 : ce.is_alive = true := by
              cases hv : ce.is_alive with
              | true => rfl
              | false => rw [hv] at hal; simp at hal
            have hpeq2 : (s.player == some ce.eid) = true := by
              cases hv : s.player == some ce.eid with
              | true => rfl
              | false => rw [hv] at hpeq; simp at hpeq
            constructor
            · intro _
              exact currentLivePlayerB_of
                (show currentTurnEntity { s with game_state := "player_turn" } = some ce from hceq)
                hpeq2 hal2
            · intro hg
              exact absurd (show ("player_turn" : String) = "npc_turn" from hg) (by decide)
        · exact h

/-- What a passing `handle_player_action` entry guard means: it is the
player's turn and the current initiative entity is the player object. -/
theorem hpaGuard_facts {s : GameEngine} (h : hpaGuardFail s = false) :
    s.game_state = "player_turn" ∧
    ∃ ce, currentTurnEntity s = some ce ∧ s.player = some ce.eid := by
  unfold hpaGuardFail at h
  cases hsp : s.player with
  | none => rw [hsp] at h; cases h
  | some pid =>
    rw [hsp] at h
    have h2 := Bool.or_eq_false_iff.mp h
    have hgs : s.game_state = "player_turn" := by simpa using h2.2
    refine ⟨hgs, ?_⟩
    cases hce : currentTurnEntity s with
    | none => rw [hce] at h2; simp at h2
    | some ce =>
      rw [hce] at h2
      have : ce.eid = pid := by simpa using h2.1
      exact ⟨ce, rfl, by rw [this]⟩

/-- Writing back a mutation of the current initiative entity leaves it
current. -/
theorem currentTurnEntity_setE {s : GameEngine} {p p1 : Entity}
    (hc : currentTurnEntity s = some p) (heid : p1.eid = p.eid) :
    currentTurnEntity { s with entities := setE s.entities p1 } = some p1 := by
  unfold currentTurnEntity at hc ⊢
  dsimp only
  cases hj : s.turn_order[s.current_turn_index]? with
  | none => rw [hj] at hc; cases hc
  | some j =>
    rw [hj] at hc
    dsimp only at hc ⊢
    exact lookupE_setE_self hc (heid.trans (lookupE_eid hc))

/-- A successful player action that only rewrites the player object keeps the
phase invariant: the phase stays `player_turn` and the mutated player is
still the live current entity. -/
theorem phaseInv_playerWrite {s : GameEngine} {p p1 : Entity}
    (hgs : s.game_state = "player_turn") (hc : currentTurnEntity s = some p)
    (hpl : s.player = some p.eid) (heid : p1.eid = p.eid)
    (hal : p1.is_alive = true) :
    PhaseInv { s with entities := setE s.entities p1 } := by
  constructor
  · intro _
    refine currentLivePlayerB_of (currentTurnEntity_setE hc heid) ?_ hal
    show (s.player == some p1.eid) = true
    rw [hpl, heid]
    simp
  · intro hg
    rw [show ({ s with entities := setE s.entities p1 } : GameEngine).game_state
        = s.game_state from rfl, hgs] at hg
    exact absurd hg (by decide)

/-- The current initiative entity is also what the player reference resolves
to, whenever the engine says the current entity is the player. -/
theorem playerEntity_of_current {s : GameEngine} {p : Entity}
    (hc : currentTurnEntity s = some p) (hpl : s.player = some p.eid) :
    playerEntity s = some p := by
  unfold currentTurnEntity at hc
  cases hj : s.turn_order[s.current_turn_index]? with
  | none => rw [hj] at hc; cases hc
  | some j =>
    rw [hj] at hc
    unfold playerEntity
    rw [hpl, lookupE_eid hc]
    exact hc

/-- The post-attack win/lose check of `handle_player_action` preserves the
phase invariant. -/
theorem phaseInv_hpaWinLose {s : GameEngine} {p1 : Entity}
    (hgs : s.game_state = "player_turn") (hc : currentTurnEntity s = some p1)
    (hpl : s.player = some p1.eid) :
    PhaseInv (hpaWinLoseCheck s) := by
  unfold hpaWinLoseCheck
  split
  · exact phaseInv_of_state_eq "game_over_player_win" rfl (by decide) (by decide)
  · split
    · next p hpe =>
      have hpe2 := playerEntity_of_current hc hpl
      rw [hpe] at hpe2
      cases hpe2
      split
      · exact phaseInv_of_state_eq "game_over_player_lose" rfl (by decide) (by decide)
      · next half =>
        have hal : p1.is_alive = true := by
          cases hv : p1.is_alive with
          | true => rfl
          | false => rw [hv] at half; simp at half
        constructor
        · intro _
          refine currentLivePlayerB_of hc ?_ hal
          rw [hpl]
          simp
        · intro hg
          rw [hgs] at hg
          exact absurd hg (by decide)
    · next hpe =>
      have hpe2 := playerEntity_of_current hc hpl
      rw [hpe] at hpe2
      cases hpe2

theorem Entity.move_frame (e : Entity) (dx dy : Int) (m : GameMap) :
    (Entity.move e dx dy m).2.eid = e.eid ∧ (Entity.move e dx dy m).2.is_alive = e.is_alive := by
  unfold Entity.move
  dsimp only
  split
  · exact ⟨rfl, rfl⟩
  · split
    · exact ⟨rfl, rfl⟩
    · split
      · exact ⟨rfl, rfl⟩
      · exact ⟨rfl, rfl⟩

theorem Entity.take_damage_eid (e : Entity) (amount : Int) :
    (Entity.take_damage e amount).2.eid = e.eid := by
  unfold Entity.take_damage
  dsimp only
  split
  · rfl
  · split
    · rfl
    · rfl

theorem Entity.attack_eids (a t : Entity) (ab : Option Ability) :
    (Entity.attack a t ab).2.2.1.eid = a.eid ∧ (Entity.attack a t ab).2.2.2.eid = t.eid := by
  unfold Entity.attack
  dsimp only
  split
  · exact ⟨rfl, rfl⟩
  · split
    · exact ⟨rfl, rfl⟩
    · exact ⟨rfl, Entity.take_damage_eid t _⟩

/-- A successful `attack` does not change the attacker's death flag. -/
theorem Entity.attack_attacker_alive (a t : Entity) (ab : Option Ability) :
    (Entity.attack a t ab).2.2.1.is_alive = a.is_alive := by
  unfold Entity.attack
  dsimp only
  split
  · rfl
  · split
    · rfl
    · rfl

/-- After `attack` runs against the store, the attacker's identity still
resolves to a store entry with the attacker's identity. -/
theorem attackOnStore_lookup {store : List Entity} {a t : Entity} {ab : Option Ability}
    (hl : lookupE store a.eid = some a) :
    (attackOnStore store a t ab).1 = false ∨
    ∃ a2, lookupE (attackOnStore store a t ab).2.2 a.eid = some a2 ∧ a2.eid = a.eid := by
  unfold attackOnStore
  dsimp only
  by_cases h1 : (Entity.attack a t ab).1 = true
  · rw [if_pos h1]
    right
    by_cases h2 : (t.eid == a.eid) = true
    · rw [if_pos h2]
      dsimp only
      have hta : t.eid = a.eid := by simpa using h2
      have heid : ({ (Entity.attack a t ab).2.2.2 with
          ap := (Entity.attack a t ab).2.2.1.ap } : Entity).eid = a.eid := by
        have := (Entity.attack_eids a t ab).2
        simpa using this.trans hta
      exact ⟨_, lookupE_setE_self hl heid, heid⟩
    · rw [if_neg h2]
      dsimp only
      have hane : (Entity.attack a t ab).2.2.2.eid ≠ a.eid := by
        rw [(Entity.attack_eids a t ab).2]
        intro hq
        exact h2 (by simp [hq])
      have hstep : lookupE (setE store (Entity.attack a t ab).2.2.2) a.eid = some a :=
        (lookupE_setE_ne hane).trans hl
      have heid2 : (Entity.attack a t ab).2.2.1.eid = a.eid := (Entity.attack_eids a t ab).1
      exact ⟨_, lookupE_setE_self hstep heid2, heid2⟩
  · rw [if_neg h1]
    left
    rfl

theorem currentTurnEntity_elim {s : GameEngine} {p : Entity}
    (hc : currentTurnEntity s = some p) :
    ∃ j, s.turn_order[s.current_turn_index]? = some j ∧ lookupE s.entities j = some p := by
  unfold currentTurnEntity at hc
  cases hj : s.turn_order[s.current_turn_index]? with
  | none => rw [hj] at hc; cases hc
  | some j =>
    rw [hj] at hc
    exact ⟨j, rfl, hc⟩

/-- The pre-epilogue body of `handle_player_action` preserves the phase
invariant. -/
theorem phaseInv_hpaCore (s : GameEngine) (h : PhaseInv s) (action_type : String)
    (target_pos : Option (Int × Int)) (ability_to_use : Option Ability) :
    PhaseInv (handlePlayerActionCore s action_type target_pos ability_to_use).2.2 := by
  unfold handlePlayerActionCore
  dsimp only
  split
  · exact h
  · next hguard =>
    have hgf : hpaGuardFail s = false := by
      cases hv : hpaGuardFail s with
      | true => rw [hv] at hguard; simp at hguard
      | false => rfl
    obtain ⟨hgs, ce, hce, hpl⟩ := hpaGuard_facts hgf
    split
    · exact h
    · next p hp =>
      rw [hce] at hp
      cases hp
      split
      · exact phaseInv_addLog _ h
      · next halive =>
        have hal : ce.is_alive = true := by
          cases hv : ce.is_alive with
          | true => rfl
          | false => rw [hv] at halive; simp at halive
        split
        · -- action_type == "move"
          split
          · exact h
          · next mab hmab =>
            split
            · split
              · exact h
              · next tp htp =>
                split
                · split
                  · -- successful move
                    refine phaseInv_playerWrite hgs hce hpl ?_ ?_
                    · exact (Entity.move_frame ce _ _ _).1
                    · exact (Entity.move_frame ce _ _ _).2.trans hal
                  · exact h
                · exact h
            · exact h
        · split
          · -- action_type == "ability"
            split
            · next tp ab =>
              split
              · exact h
              · split
                · -- TILE target
                  split
                  · exact h
                  · exact phaseInv_playerWrite hgs hce hpl rfl hal
                · -- SELF target
                  exact phaseInv_playerWrite hgs hce hpl rfl hal
                · -- entity targets
                  split
                  · next t ht =>
                    split
                    · -- damage ability: attack
                      split
                      · next hsucc =>
                        obtain ⟨j, hj, hlj⟩ := currentTurnEntity_elim hce
                        have hje : j = ce.eid := (lookupE_eid hlj).symm
                        have hlce : lookupE s.entities ce.eid = some ce := hje ▸ hlj
                        rcases @attackOnStore_lookup s.entities ce t (some ab) hlce with
                          hfa | ⟨a2, hla2, heid2⟩
                        · rw [hsucc] at hfa; cases hfa
                        · have hcur : currentTurnEntity
                              { s with entities := (attackOnStore s.entities ce t (some ab)).2.2 }
                              = some a2 := by
                            unfold currentTurnEntity
                            dsimp only
                            rw [hj, hje]
                            exact hla2
                          have hppl : ({ s with
                              entities := (attackOnStore s.entities ce t (some ab)).2.2 } :
                              GameEngine).player = some a2.eid := by
                            show s.player = some a2.eid
                            rw [hpl, heid2]
                          exact phaseInv_hpaWinLose hgs hcur hppl
                      · exact h
                    · -- zero-damage entity-targeted ability
                      exact phaseInv_playerWrite hgs hce hpl rfl hal
                  · exact h
            · exact h
          · exact h

theorem phaseInv_end_player_turn {s : GameEngine} (h : PhaseInv s) :
    PhaseInv (end_player_turn s) := by
  unfold end_player_turn
  split
  · exact phaseInv_nextTurn _
  · exact h

/-- `handle_player_action` preserves the phase invariant. -/
theorem phaseInv_hpa (s : GameEngine) (h : PhaseInv s) (action_type : String)
    (target_pos : Option (Int × Int)) (ability_to_use : Option Ability) :
    PhaseInv (handle_player_action s action_type target_pos ability_to_use).2.2 := by
  unfold handle_player_action
  dsimp only
  have hcore := phaseInv_hpaCore s h action_type target_pos ability_to_use
  split
  · split
    · split
      · exact phaseInv_end_player_turn (phaseInv_addLog _ (phaseInv_addLog _ hcore))
      · exact phaseInv_addLog _ hcore
    · exact phaseInv_addLog _ hcore
  · exact hcore

/-- The list of entity identities of a state, in store order. -/
def eids (s : GameEngine) : List Nat := s.entities.map (fun e => e.eid)

theorem eids_regenCurrent (s : GameEngine) : eids (regenCurrent s) = eids s := by
  unfold regenCurrent
  split
  · exact eidMap_setE _ _
  · rfl

theorem eids_setupTurnOrder (s : GameEngine) : eids (setupTurnOrder s) = eids s := by
  unfold setupTurnOrder
  dsimp only
  split
  · exact eids_regenCurrent _
  · split
    · split
      · rfl
      · split
        · rfl
        · rfl
    · split
      · rfl
      · rfl

theorem eids_beginTurn (s : GameEngine) (ce : Entity) : eids (beginTurn s ce) = eids s := by
  unfold beginTurn
  dsimp only
  split
  · exact eidMap_setE _ _
  · exact eidMap_setE _ _

theorem eids_resolveEmptyTurnOrder (s : GameEngine) :
    eids (resolveEmptyTurnOrder s) = eids s := by
  unfold resolveEmptyTurnOrder
  dsimp only
  split
  · split
    · split
      · rfl
      · rfl
    · split
      · split
        · rfl
        · rfl
      · rfl
  · rfl

theorem eids_nextTurn (s : GameEngine) : eids (nextTurn s) = eids s := by
  unfold nextTurn
  dsimp only
  split
  · exact eids_resolveEmptyTurnOrder _
  · split
    · exact eids_beginTurn _ _
    · rfl

theorem eids_startGame (s : GameEngine) : eids (startGame s) = eids s := by
  unfold startGame
  dsimp only
  split
  · rfl
  · split
    · split
      · split
        · exact eids_setupTurnOrder s
        · split
          · exact eids_setupTurnOrder s
          · exact eids_setupTurnOrder s
      · exact eids_setupTurnOrder s
    · split
      · exact (eids_beginTurn _ _).trans (eids_setupTurnOrder s)
      · exact eids_setupTurnOrder s

theorem eidMap_attackOnStore (store : List Entity) (a t : Entity) (ab : Option Ability) :
    (attackOnStore store a t ab).2.2.map (fun e => e.eid) = store.map (fun e => e.eid) := by
  unfold attackOnStore
  dsimp only
  split
  · split
    · exact eidMap_setE _ _
    · exact (eidMap_setE _ _).trans (eidMap_setE _ _)
  · rfl

theorem eids_checkPlayerDeadLose (s : GameEngine) :
    eids (checkPlayerDeadLose s) = eids s := by
  unfold checkPlayerDeadLose
  split
  · split
    · rfl
    · rfl
  · rfl

theorem eids_npcStep {s : GameEngine} {npc : Entity} {mab : Ability} {dx dy : Int}
    {msg : String} {s' : GameEngine} (h : npcStep s npc mab dx dy msg = some s') :
    eids s' = eids s := by
  unfold npcStep at h
  dsimp only at h
  split at h
  · split at h
    · cases h
      exact eidMap_setE _ _
    · cases h
  · cases h

theorem eids_npcTryY (s : GameEngine) (npc : Entity) (mab : Ability) (dy : Int)
    (msg : String) : eids (npcTryY s npc mab dy msg) = eids s := by
  unfold npcTryY
  split
  · split
    · next h => exact eids_npcStep h
    · rfl
  · rfl

theorem eids_npcMoveTowards (s : GameEngine) (npc pl : Entity) (mab : Ability) :
    eids (npcMoveTowards s npc pl mab) = eids s := by
  unfold npcMoveTowards
  split
  · split
    · next h => exact eids_npcStep h
    · exact eids_npcTryY _ _ _ _ _
  · exact eids_npcTryY _ _ _ _ _

theorem eids_npcRunAway (s : GameEngine) (npc pl : Entity) (mab : Ability) :
    eids (npcRunAway s npc pl mab) = eids s := by
  unfold npcRunAway
  split
  · split
    · next h => exact eids_npcStep h
    · exact eids_npcTryY _ _ _ _ _
  · exact eids_npcTryY _ _ _ _ _

theorem eids_npcMovePhase (s : GameEngine) (npc : Entity) :
    eids (npcMovePhase s npc) = eids s := by
  unfold npcMovePhase
  split
  · split
    · split
      · split
        · split
          · split
            · exact eids_npcMoveTowards _ _ _ _
            · rfl
          · split
            · split
              · exact eids_npcRunAway _ _ _ _
              · rfl
            · rfl
        · rfl
      · rfl
    · rfl
  · rfl

theorem eids_run_npc_behavior (s : GameEngine) (npcEid : Nat) :
    eids (run_npc_behavior s npcEid) = eids s := by
  unfold run_npc_behavior
  dsimp only
  split
  · rfl
  · split
    · rfl
    · split
      · rfl
      · split
        · rfl
        · split
          · split
            · exact ((eids_checkPlayerDeadLose _).trans (eidMap_attackOnStore _ _ _ _))
            · split
              · exact ((eids_checkPlayerDeadLose _).trans (eidMap_attackOnStore _ _ _ _))
              · exact (eids_npcMovePhase _ _).trans
                  ((eids_checkPlayerDeadLose _).trans (eidMap_attackOnStore _ _ _ _))
          · exact eids_npcMovePhase _ _

theorem eids_gameOverOverride (s : GameEngine) :
    eids (gameOverOverride s) = eids s := by
  unfold gameOverOverride
  split
  · split
    · rfl
    · split
      · rfl
      · rfl
  · rfl

theorem eids_update (s : GameEngine) : eids (update s) = eids s := by
  unfold update
  dsimp only
  split
  · rfl
  · split
    · exact eids_nextTurn _
    · split
      · exact eids_nextTurn _
      · refine (eids_gameOverOverride _).trans ?_
        split
        · split
          · exact (eids_nextTurn _).trans (eids_run_npc_behavior _ _)
          · rfl
        · rfl

theorem eids_hpaWinLoseCheck (s : GameEngine) :
    eids (hpaWinLoseCheck s) = eids s := by
  unfold hpaWinLoseCheck
  dsimp only
  split
  · split
    · rfl
    · rfl
  · split
    · split
      · split
        · rfl
        · rfl
      · rfl
    · rfl

theorem eids_hpaCore (s : GameEngine) (action_type : String)
    (target_pos : Option (Int × Int)) (ability_to_use : Option Ability) :
    eids (handlePlayerActionCore s action_type target_pos ability_to_use).2.2 = eids s := by
  unfold handlePlayerActionCore
  dsimp only
  split
  · rfl
  · split
    · rfl
    · split
      · rfl
      · split
        · split
          · rfl
          · split
            · split
              · rfl
              · split
                · split
                  · exact eidMap_setE _ _
                  · rfl
                · rfl
            · rfl
        · split
          · split
            · split
              · rfl
              · split
                · split
                  · rfl
                  · exact eidMap_setE _ _
                · exact eidMap_setE _ _
                · split
                  · split
                    · split
                      · exact (eids_hpaWinLoseCheck _).trans (eidMap_attackOnStore _ _ _ _)
                      · rfl
                    · exact eidMap_setE _ _
                  · rfl
            · rfl
          · rfl

theorem eids_end_player_turn (s : GameEngine) :
    eids (end_player_turn s) = eids s := by
  unfold end_player_turn
  split
  · refine (eids_nextTurn _).trans ?_
    split
    · split
      · rfl
      · rfl
    · rfl
  · rfl

theorem eids_hpa (s : GameEngine) (action_type : String)
    (target_pos : Option (Int × Int)) (ability_to_use : Option Ability) :
    eids (handle_player_action s action_type target_pos ability_to_use).2.2 = eids s := by
  unfold handle_player_action
  dsimp only
  split
  · split
    · split
      · exact (eids_end_player_turn _).trans (eids_hpaCore _ _ _ _)
      · exact eids_hpaCore _ _ _ _
    · exact eids_hpaCore _ _ _ _
  · exact eids_hpaCore _ _ _ _

theorem wf_of_eids {s s' : GameEngine} (h : eids s' = eids s) (hw : WF s) : WF s' := by
  unfold WF at hw ⊢
  have h2 : eids s' = s'.entities.map (fun e => e.eid) := rfl
  rw [← h2, h]
  exact hw

/-- Along every operation sequence from a started well-formed match, entity
identities stay distinct and the phase invariant holds. -/
theorem reach_good {s0 s : GameEngine} (hwf : WF s0) (hr : Reach (startGame s0) s) :
    WF s ∧ PhaseInv s := by
  induction hr with
  | refl => exact ⟨wf_of_eids (eids_startGame s0) hwf, phaseInv_startGame s0 hwf⟩
  | stepStart hr ih => exact ⟨wf_of_eids (eids_startGame _) ih.1, phaseInv_startGame _ ih.1⟩
  | stepNext hr ih => exact ⟨wf_of_eids (eids_nextTurn _) ih.1, phaseInv_nextTurn _⟩
  | stepUpdate hr ih => exact ⟨wf_of_eids (eids_update _) ih.1, phaseInv_update _ ih.2⟩
  | stepAction a tp ab hr ih =>
    exact ⟨wf_of_eids (eids_hpa _ _ _ _) ih.1, phaseInv_hpa _ ih.2 _ _ _⟩

theorem update_terminal {s : GameEngine} (h : isTerminalState s.game_state = true) :
    update s = s := by
  unfold update
  rw [if_pos h]

theorem hpa_guardFail_noop {s : GameEngine} (h : hpaGuardFail s = true)
    (a : String) (tp : Option (Int × Int)) (ab : Option Ability) :
    (handle_player_action s a tp ab).2.2 = s := by
  unfold handle_player_action
  dsimp only
  unfold handlePlayerActionCore
  rw [if_pos h]
  rfl

/-! ## Concrete match used by the counterexample traces -/

/-- A ranged ENEMY-targeted ability for the player. -/
def pistol : Ability :=
  ⟨"pistol_shot", "Pistol Shot", 1, 2, 10, some "ballistic", TargetType.ENEMY, "Ranged attack.", 0⟩

/-- A melee ENEMY-targeted ability for the NPC. -/
def strike : Ability :=
  ⟨"strike", "Strike", 1, 1, 10, some "melee", TargetType.ENEMY, "Melee blow.", 0⟩

/-- A 3-by-1 open, flat map. -/
def mapCX : GameMap := ⟨[['.', '.', '.']], [[0, 0, 0]]⟩

/-- The player entity: 5 HP, 2 AP, standing at (0,0). -/
def playerCX : Entity :=
  ⟨0, 0, 0, '@', "Player", 5, 5, 2, 2, [pistol], some "player_controlled", some "player_char", true⟩

/-- A hostile NPC: 3 HP, 2 AP, adjacent to the player at (1,0). -/
def goblinCX : Entity :=
  ⟨1, 1, 0, 'g', "Goblin", 3, 3, 2, 2, [strike], some "move_towards_player", some "goblin", true⟩

/-- The loaded pre-start engine state of the concrete match. -/
def S0CX : GameEngine := ⟨mapCX, [playerCX, goblinCX], some 0, [], 0, "initializing", []⟩

/-- After `start_game`: the player's turn. -/
def cxStart : GameEngine := startGame S0CX

/-- After a bare `next_turn`: the goblin's turn. -/
def cxNpc : GameEngine := nextTurn cxStart

/-- After `update` drives the goblin's turn: the goblin's strike kills the
player and the engine lands in the losing game-over state. -/
def cxLose : GameEngine := update cxNpc

/-- Alternatively, from `cxStart` the player shoots the goblin dead and the
engine lands in the winning game-over state. -/
def cxWin : GameEngine := (handle_player_action cxStart "ability" (some (1, 0)) (some pistol)).2.2

/-- A finished match: both entities dead, the losing phase already entered
and its transition already logged, the initiative order already emptied. -/
def cxAllDead : GameEngine :=
  ⟨mapCX,
   [{ playerCX with hp := 0, is_alive := false, char := '%' },
    { goblinCX with hp := 0, is_alive := false, char := '%' }],
   some 0, [], 0, "game_over_player_lose",
   ["No entities left alive in turn order.", "Player has been defeated! Game Over."]⟩

/-- C1 (amended): in every state reachable from `start_game` by the four
operations on a store of distinct entity objects, a `player_turn` phase means
the current initiative entity is the live player and an `npc_turn` phase
means it is a live non-player; and the game-over phases are preserved by
`update` and `handle_player_action` (the claimed full biconditional and the
terminality under `next_turn` are refuted by `claim_C1_counterexample`). -/
theorem claim_C1 :
    (∀ s0 s, WF s0 → Reach (startGame s0) s → PhaseInv s) ∧
    (∀ s : GameEngine,
      s.game_state = "game_over_player_win" ∨ s.game_state = "game_over_player_lose" →
      (update s).game_state = s.game_state ∧
      ∀ a tp ab, ((handle_player_action s a tp ab).2.2).game_state = s.game_state) := by
  constructor
  · intro s0 s hwf hr
    exact (reach_good hwf hr).2
  · intro s hg
    have hterm : isTerminalState s.game_state = true := by
      rcases hg with h | h <;> simp [isTerminalState, h]
    have hguard : hpaGuardFail s = true := by
      unfold hpaGuardFail
      have hne : (s.game_state != "player_turn") = true := by
        rcases hg with h | h <;> simp [h]
      cases hsp : s.player with
      | none => rfl
      | some pid => simp [hne]
    refine ⟨by rw [update_terminal hterm], ?_⟩
    intro a tp ab
    rw [hpa_guardFail_noop hguard]

/-- C1: the invariant as claimed is false on the code.  On the concrete match
`S0CX`, the reachable state `cxLose` is in the losing game-over phase yet a
further `next_turn` (one of the claim's operations) moves the phase back to
`npc_turn`; and the reachable state `cxWin` is in the winning game-over phase
while the current initiative entity is the live player, refuting the
right-to-left direction of the claimed biconditional. -/
theorem claim_C1_counterexample :
    Reach (startGame S0CX) cxLose ∧ cxLose.game_state = "game_over_player_lose" ∧
    Reach (startGame S0CX) (nextTurn cxLose) ∧ (nextTurn cxLose).game_state = "npc_turn" ∧
    Reach (startGame S0CX) cxWin ∧ cxWin.game_state = "game_over_player_win" ∧
    currentLivePlayerB cxWin = true ∧ cxWin.game_state ≠ "player_turn" :=
  ⟨Reach.stepUpdate (Reach.stepNext (Reach.refl _)), by decide,
   Reach.stepNext (Reach.stepUpdate (Reach.stepNext (Reach.refl _))), by decide,
   Reach.stepAction "ability" (some (1, 0)) (some pistol) (Reach.refl _), by decide,
   by decide, by decide⟩

/-- C1: witness instantiating the amended invariant on the concrete match. -/
theorem claim_C1_witness :
    PhaseInv cxLose ∧ (update cxLose).game_state = cxLose.game_state :=
  ⟨claim_C1.1 S0CX cxLose (by unfold WF; decide)
     (Reach.stepUpdate (Reach.stepNext (Reach.refl _))),
   (claim_C1.2 cxLose (Or.inr (by decide))).1⟩

/-- C4 (amended): once the phase is a game-over state, running `update` again
is a no-op: the phase is unchanged and nothing is appended to the event log
(the claim's statement about `next_turn` is refuted by
`claim_C4_counterexample`). -/
theorem claim_C4 : ∀ s : GameEngine,
    s.game_state = "game_over_player_win" ∨ s.game_state = "game_over_player_lose" →
    update s = s := by
  intro s h
  apply update_terminal
  rcases h with h | h <;> simp [isTerminalState, h]

/-- C4: the claim as stated is false on the code for `next_turn`.  In the
reachable losing state `cxLose` (a live NPC remains), `next_turn` changes the
phase back to `npc_turn`; and in the finished state `cxAllDead`, `next_turn`
keeps the phase but appends "No entities left alive in turn order." again,
a duplicate of an entry already in the log. -/
theorem claim_C4_counterexample :
    cxLose.game_state = "game_over_player_lose" ∧
    (nextTurn cxLose).game_state = "npc_turn" ∧
    cxAllDead.game_state = "game_over_player_lose" ∧
    (nextTurn cxAllDead).game_state = "game_over_player_lose" ∧
    (nextTurn cxAllDead).game_log
      = cxAllDead.game_log ++ ["No entities left alive in turn order."] ∧
    "No entities left alive in turn order." ∈ cxAllDead.game_log :=
  ⟨by decide, by decide, rfl, by decide, by decide, by decide⟩

/-- C4: witness instantiating the amended idempotence of `update` on the
concrete losing state. -/
theorem claim_C4_witness : update cxLose = cxLose :=
  claim_C4 cxLose (Or.inr (by decide))

/-- C7 (amended): for every coordinate pair outside the grid bounds,
`get_height` returns the `float('inf')` impassable sentinel — not the
integer 0 — and raises no exception (the embedding is total).  The claim's
"returns 0" is refuted by `claim_C7_counterexample`. -/
theorem claim_C7 : ∀ (m : GameMap) (x y : Int), m.is_valid x y = false →
    m.get_height x y = Hgt.inf := by
  intro m x y h
  unfold GameMap.get_height
  rw [h]
  simp

/-- C7: the claim as stated is false: at the out-of-bounds coordinate (5,5)
of the concrete 3-by-1 map, `get_height` returns infinity, not the integer
0. -/
theorem claim_C7_counterexample :
    GameMap.is_valid mapCX 5 5 = false ∧
    GameMap.get_height mapCX 5 5 = Hgt.inf ∧
    GameMap.get_height mapCX 5 5 ≠ Hgt.int 0 :=
  ⟨by decide, by decide, by decide⟩

/-- C7: witness instantiating the amended statement at (5,5). -/
theorem claim_C7_witness : GameMap.get_height mapCX 5 5 = Hgt.inf :=
  claim_C7 mapCX 5 5 (by decide)

/-- C8: `Entity.move` succeeds exactly when the destination is walkable, its
height is at most the configured maximum map height, and the height increase
from the current tile is at most the configured climb limit (descending any
amount allowed; an out-of-bounds current tile compares as infinity and never
blocks); on success it relocates the entity to the destination and on
failure it changes nothing. -/
theorem claim_C8 : ∀ (e : Entity) (dx dy : Int) (m : GameMap),
    ((Entity.move e dx dy m).1 = true ↔
      (m.is_walkable (e.x + dx) (e.y + dy) = true ∧
       ∃ t : Int, m.get_height (e.x + dx) (e.y + dy) = Hgt.int t ∧
         t ≤ MAX_MAP_HEIGHT_LEVEL ∧
         ∀ c : Int, m.get_height e.x e.y = Hgt.int c →
           t - c ≤ MAX_CLIMB_HEIGHT_DIFFERENCE)) ∧
    ((Entity.move e dx dy m).1 = true →
      (Entity.move e dx dy m).2 = { e with x := e.x + dx, y := e.y + dy }) ∧
    ((Entity.move e dx dy m).1 = false → (Entity.move e dx dy m).2 = e) := by
  intro e dx dy m
  unfold Entity.move
  dsimp only
  by_cases hw : m.is_walkable (e.x + dx) (e.y + dy) = true
  · rw [if_neg (by simp [hw])]
    have hv : m.is_valid (e.x + dx) (e.y + dy) = true := by
      unfold GameMap.is_walkable at hw
      by_cases h2 : m.is_valid (e.x + dx) (e.y + dy) = true
      · exact h2
      · rw [if_neg h2] at hw; cases hw
    have hh : m.get_height (e.x + dx) (e.y + dy)
        = Hgt.int ((m.heightmap.getD (e.y + dy).toNat []).getD (e.x + dx).toNat 0) := by
      unfold GameMap.get_height
      rw [if_pos hv]
    rw [hh]
    set t := ((m.heightmap.getD (e.y + dy).toNat []).getD (e.x + dx).toNat 0) with ht
    by_cases h5 : t > MAX_MAP_HEIGHT_LEVEL
    · rw [if_pos (by simp only [Hgt.gtInt, decide_eq_true_eq]; exact h5)]
      refine ⟨⟨fun hf => by simp at hf, ?_⟩, fun hf => by simp at hf, fun _ => rfl⟩
      rintro ⟨-, t', ht', h5', -⟩
      cases ht'
      exact absurd h5' (not_le.mpr h5)
    · rw [if_neg (by simp only [Hgt.gtInt, decide_eq_true_eq]; exact h5)]
      cases hc : m.get_height e.x e.y with
      | int c =>
        by_cases hcl : t - c > MAX_CLIMB_HEIGHT_DIFFERENCE
        · rw [if_pos (by simp only [Hgt.diffGt, decide_eq_true_eq]; exact hcl)]
          refine ⟨⟨fun hf => by simp at hf, ?_⟩, fun hf => by simp at hf, fun _ => rfl⟩
          rintro ⟨-, t', ht', -, hall⟩
          cases ht'
          exact absurd (hall c rfl) (not_le.mpr hcl)
        · rw [if_neg (by simp only [Hgt.diffGt, decide_eq_true_eq]; exact hcl)]
          refine ⟨⟨fun _ => ⟨hw, t, rfl, le_of_not_lt h5, ?_⟩, fun _ => rfl⟩,
            fun _ => rfl, fun hf => by simp at hf⟩
          intro c' hc'
          cases hc'
          exact le_of_not_lt hcl
      | inf =>
        rw [if_neg (by simp [Hgt.diffGt])]
        refine ⟨⟨fun _ => ⟨hw, t, rfl, le_of_not_lt h5, ?_⟩, fun _ => rfl⟩,
          fun _ => rfl, fun hf => by simp at hf⟩
        intro c' hc'
        cases hc'
  · have hw2 : m.is_walkable (e.x + dx) (e.y + dy) = false := by
      cases hq : m.is_walkable (e.x + dx) (e.y + dy) with
      | true => exact absurd hq hw
      | false => rfl
    rw [if_pos (by simp [hw2])]
    refine ⟨⟨fun hf => by simp at hf, ?_⟩, fun hf => by simp at hf, fun _ => rfl⟩
    rintro ⟨hww, -⟩
    exact absurd hww hw

/-- C8: witness exercising both a successful and a rejected move at concrete
inputs. -/
theorem claim_C8_witness :
    (Entity.move playerCX 1 0 mapCX).2 = { playerCX with x := 1, y := 0 } ∧
    (Entity.move playerCX 5 0 mapCX).2 = playerCX :=
  ⟨(claim_C8 playerCX 1 0 mapCX).2.1 (by decide),
   (claim_C8 playerCX 5 0 mapCX).2.2 (by decide)⟩

/-- C9: `Entity.attack` with an ability whose target type is neither ENEMY
nor ANY_ENTITY (that is SELF, ALLY or TILE) fails and changes neither
entity: no AP is deducted and no HP or death flag changes. -/
theorem claim_C9 : ∀ (a t : Entity) (ab : Ability),
    ab.target_type ≠ TargetType.ENEMY → ab.target_type ≠ TargetType.ANY_ENTITY →
    (Entity.attack a t (some ab)).1 = false ∧
    (Entity.attack a t (some ab)).2.2.1 = a ∧
    (Entity.attack a t (some ab)).2.2.2 = t := by
  intro a t ab h1 h2
  unfold Entity.attack
  cases hch : Entity.attackCheck a t (some ab) with
  | some m => exact ⟨rfl, rfl, rfl⟩
  | none =>
    exfalso
    unfold Entity.attackCheck at hch
    have h12 : (!(ab.target_type == TargetType.ENEMY ||
        ab.target_type == TargetType.ANY_ENTITY)) = true := by
      simp [h1, h2]
    split at hch
    · cases hch
    · dsimp only at hch
      rw [if_pos h12] at hch
      cases hch

/-- C10: `Entity.attack` against a target whose death flag is already set
fails, deducts no AP from the attacker and changes no HP on either entity:
the target-alive check precedes the AP deduction. -/
theorem claim_C10 : ∀ (a t : Entity) (ab : Option Ability), t.is_alive = false →
    (Entity.attack a t ab).1 = false ∧
    (Entity.attack a t ab).2.2.1 = a ∧
    (Entity.attack a t ab).2.2.2 = t := by
  intro a t ab ht
  unfold Entity.attack
  cases hch : Entity.attackCheck a t ab with
  | some m => exact ⟨rfl, rfl, rfl⟩
  | none =>
    exfalso
    unfold Entity.attackCheck at hch
    split at hch
    · cases hch
    · split at hch
      · cases hch
      · split at hch
        · cases hch
        · split at hch
          · cases hch
          · split at hch
            · cases hch
            · split at hch
              · cases hch
              · next hcond =>
                rw [ht] at hcond
                simp at hcond

/-- C9: witness applying the theorem to a SELF-targeted ability. -/
theorem claim_C9_witness :
    (Entity.attack playerCX goblinCX (some { pistol with target_type := TargetType.SELF })).1
      = false ∧
    (Entity.attack playerCX goblinCX
      (some { pistol with target_type := TargetType.SELF })).2.2.2 = goblinCX := by
  have h := claim_C9 playerCX goblinCX { pistol with target_type := TargetType.SELF }
    (by decide) (by decide)
  exact ⟨h.1, h.2.2⟩

/-- C10: witness applying the theorem to a dead target. -/
theorem claim_C10_witness :
    (Entity.attack goblinCX { playerCX with is_alive := false } (some strike)).1 = false ∧
    (Entity.attack goblinCX { playerCX with is_alive := false } (some strike)).2.2.1
      = goblinCX := by
  have h := claim_C10 goblinCX { playerCX with is_alive := false } (some strike) (by decide)
  exact ⟨h.1, h.2.1⟩

/-- A concrete target of the abilities-era entity class: 12 HP, 3 defense. -/
def targetX : EntityX := ⟨2, "Dummy", 1, 0, 12, 12, 0, 2, 3, "enemies", false⟩

/-- C3: the damage pipeline of `Ability.execute` (abilities.py lines 103-104
feeding the spec-modelled `take_damage`) reduces the target's HP by exactly
`max 0 (damage_amount - defense)` with the result clamped at 0, and sets the
death flag exactly when the resulting HP is 0. -/
theorem claim_C3 : ∀ (t : EntityX) (ab : Ability), t.is_dead = false →
    (ab.applyDamageTo t).hp = max 0 (t.hp - max 0 (ab.damage_amount - t.defense)) ∧
    ((ab.applyDamageTo t).is_dead = true ↔ (ab.applyDamageTo t).hp = 0) := by
  intro t ab ht
  unfold Ability.applyDamageTo EntityX.take_damage
  rw [ht]
  rw [if_neg (show ¬(false = true) by simp)]
  dsimp only
  by_cases hz : t.hp - max 0 (ab.damage_amount - t.defense) ≤ 0
  · rw [if_pos hz]
    refine ⟨by dsimp only; omega, by simp⟩
  · rw [if_neg hz]
    dsimp only
    refine ⟨by omega, ?_⟩
    constructor
    · intro hfalse; simp at hfalse
    · intro h0; exact absurd h0 (by omega)

/-- C3: witness at a concrete target with 12 HP and 3 defense hit for 10. -/
theorem claim_C3_witness :
    (pistol.applyDamageTo targetX).hp
      = max 0 (targetX.hp - max 0 (pistol.damage_amount - targetX.defense)) ∧
    ((pistol.applyDamageTo targetX).is_dead = true ↔ (pistol.applyDamageTo targetX).hp = 0) :=
  claim_C3 targetX pistol (by decide)

/-- The move ability record used by the C2 witness. -/
def moveAb : Ability := ⟨"move", "Move", 1, 5, 0, none, TargetType.TILE, "Walk.", 0⟩

/-- An abilities-era actor with 5 AP at (0,0). -/
def actorX : EntityX := ⟨0, "Runner", 0, 0, 10, 10, 5, 5, 0, "allies", false⟩

/-- The same actor with only 1 AP. -/
def poorAX : EntityX := ⟨0, "Runner", 0, 0, 10, 10, 1, 5, 0, "allies", false⟩

/-- The abilities-era engine with the lone 5-AP actor on the 3-by-1 map. -/
def engW : EngineX := ⟨mapCX, [actorX]⟩

/-- The abilities-era engine with the lone 1-AP actor on the 3-by-1 map. -/
def engPoor : EngineX := ⟨mapCX, [poorAX]⟩

/-- C2: for a resolved path of tile-count L, the move branch of
`Ability.execute` either succeeds — relocating the actor to the target and
deducting exactly L-1 AP, touching nothing else of the actor — or rejects
the action with the actor unchanged; and it always rejects when L-1 exceeds
the actor's current AP. -/
theorem claim_C2 : ∀ (eng : EngineX) (ab : Ability) (actor : EntityX)
    (tp : Int × Int) (path : List (Int × Int)),
    eng.find_path actor.x actor.y tp.1 tp.2 = some path →
    (((Ability.executeMove ab actor tp eng).1 = true →
       (Ability.executeMove ab actor tp eng).2.2
         = { actor with
             x := tp.1
             y := tp.2
             current_ap := actor.current_ap - ((path.length : Int) - 1) }) ∧
     ((Ability.executeMove ab actor tp eng).1 = false →
       (Ability.executeMove ab actor tp eng).2.2 = actor) ∧
     ((path.length : Int) - 1 > actor.current_ap →
       (Ability.executeMove ab actor tp eng).1 = false)) := by
  intro eng ab actor tp path hpath
  unfold Ability.executeMove
  dsimp only
  rw [hpath]
  dsimp only
  by_cases hlen : path.length ≤ 1
  · rw [if_pos hlen]
    exact ⟨fun hf => by simp at hf, fun _ => rfl, fun _ => rfl⟩
  · rw [if_neg hlen]
    by_cases hap : actor.current_ap < (path.length : Int) - 1
    · rw [if_pos hap]
      exact ⟨fun hf => by simp at hf, fun _ => rfl, fun _ => rfl⟩
    · rw [if_neg hap]
      by_cases hrg : (path.length : Int) - 1 > ab.range
      · rw [if_pos hrg]
        exact ⟨fun hf => by simp at hf, fun _ => rfl, fun _ => rfl⟩
      · rw [if_neg hrg]
        cases hbl : eng.get_blocking_entity_at tp.1 tp.2 (some actor.eid) with
        | some b => exact ⟨fun hf => by simp at hf, fun _ => rfl, fun _ => rfl⟩
        | none =>
          exact ⟨fun _ => rfl, fun hf => by simp at hf, fun hgt => absurd hgt hap⟩

/-- C2: witness — a 3-tile path costs exactly 2 AP and relocates the actor,
and the same move is rejected outright for a 1-AP actor. -/
theorem claim_C2_witness :
    (Ability.executeMove moveAb actorX (2, 0) engW).1 = true ∧
    (Ability.executeMove moveAb actorX (2, 0) engW).2.2
      = { actorX with x := 2, y := 0, current_ap := 3 } ∧
    (Ability.executeMove moveAb poorAX (2, 0) engPoor).1 = false ∧
    (Ability.executeMove moveAb poorAX (2, 0) engPoor).2.2 = poorAX := by
  have h1 := (claim_C2 engW moveAb actorX (2, 0) [(0, 0), (1, 0), (2, 0)] (by decide)).1
    (by decide)
  have h2 := claim_C2 engPoor moveAb poorAX (2, 0) [(0, 0), (1, 0), (2, 0)] (by decide)
  refine ⟨by decide, ?_, h2.2.2 (by decide), h2.2.1 (h2.2.2 (by decide))⟩
  rw [h1]
  decide

/-- When the body of `handle_player_action` reports no action taken, it has
left the phase, the initiative order, the current index and every entity
untouched (only the log may have gained a line). -/
theorem hpaCore_frame (s : GameEngine) (a : String) (tp : Option (Int × Int))
    (ab : Option Ability) :
    (handlePlayerActionCore s a tp ab).1 = true ∨
    ((handlePlayerActionCore s a tp ab).2.2.game_state = s.game_state ∧
     (handlePlayerActionCore s a tp ab).2.2.turn_order = s.turn_order ∧
     (handlePlayerActionCore s a tp ab).2.2.current_turn_index = s.current_turn_index ∧
     (handlePlayerActionCore s a tp ab).2.2.entities = s.entities) := by
  unfold handlePlayerActionCore
  dsimp only
  split
  · exact Or.inr ⟨rfl, rfl, rfl, rfl⟩
  · split
    · exact Or.inr ⟨rfl, rfl, rfl, rfl⟩
    · split
      · exact Or.inr ⟨rfl, rfl, rfl, rfl⟩
      · split
        · split
          · exact Or.inr ⟨rfl, rfl, rfl, rfl⟩
          · split
            · split
              · exact Or.inr ⟨rfl, rfl, rfl, rfl⟩
              · split
                · split
                  · exact Or.inl rfl
                  · exact Or.inr ⟨rfl, rfl, rfl, rfl⟩
                · exact Or.inr ⟨rfl, rfl, rfl, rfl⟩
            · exact Or.inr ⟨rfl, rfl, rfl, rfl⟩
        · split
          · split
            · split
              · exact Or.inr ⟨rfl, rfl, rfl, rfl⟩
              · split
                · split
                  · exact Or.inr ⟨rfl, rfl, rfl, rfl⟩
                  · exact Or.inl rfl
                · exact Or.inl rfl
                · split
                  · split
                    · split
                      · exact Or.inl rfl
                      · exact Or.inr ⟨rfl, rfl, rfl, rfl⟩
                    · exact Or.inl rfl
                  · exact Or.inr ⟨rfl, rfl, rfl, rfl⟩
            · exact Or.inr ⟨rfl, rfl, rfl, rfl⟩
          · exact Or.inr ⟨rfl, rfl, rfl, rfl⟩

/-- The success flag of `handle_player_action` is the body's `action_taken`. -/
theorem hpa_fst (s : GameEngine) (a : String) (tp : Option (Int × Int))
    (ab : Option Ability) :
    (handle_player_action s a tp ab).1 = (handlePlayerActionCore s a tp ab).1 := by
  unfold handle_player_action
  dsimp only
  split
  · next hc1 =>
    split
    · split
      · rw [hc1]
      · rw [hc1]
    · rw [hc1]
  · next hc1 =>
    have h2 : (handlePlayerActionCore s a tp ab).1 = false := by
      cases hv : (handlePlayerActionCore s a tp ab).1 with
      | true => exact absurd hv hc1
      | false => rfl
    rw [h2]

/-- When no action was taken, `handle_player_action` returns the body's
state unchanged. -/
theorem hpa_state_of_false {s : GameEngine} {a : String} {tp : Option (Int × Int)}
    {ab : Option Ability} (h : (handlePlayerActionCore s a tp ab).1 = false) :
    (handle_player_action s a tp ab).2.2 = (handlePlayerActionCore s a tp ab).2.2 := by
  unfold handle_player_action
  dsimp only
  rw [if_neg (by rw [h]; simp)]

/-- The `s2` of engine.py line 545: the body's state with the action's
message logged, on which the automatic end-of-turn test is evaluated. -/
def hpaMid (s : GameEngine) (a : String) (tp : Option (Int × Int))
    (ab : Option Ability) : GameEngine :=
  addLog (handlePlayerActionCore s a tp ab).2.2 (handlePlayerActionCore s a tp ab).2.1

/-- C5: a `handle_player_action` call that fails validation changes neither
the phase nor the turn machinery nor any entity; and a successful call after
which the player object has exactly 0 AP, the phase is still `player_turn`
and the player is alive ends the player's turn in that same call, by logging
the two end-of-turn messages and running `next_turn`. -/
theorem claim_C5 : ∀ (s : GameEngine) (a : String) (tp : Option (Int × Int))
    (ab : Option Ability),
    ((handle_player_action s a tp ab).1 = false →
      (handle_player_action s a tp ab).2.2.game_state = s.game_state ∧
      (handle_player_action s a tp ab).2.2.turn_order = s.turn_order ∧
      (handle_player_action s a tp ab).2.2.current_turn_index = s.current_turn_index ∧
      (handle_player_action s a tp ab).2.2.entities = s.entities) ∧
    ((handle_player_action s a tp ab).1 = true →
      ∀ p, playerEntity (hpaMid s a tp ab) = some p → p.ap = 0 →
        (hpaMid s a tp ab).game_state = "player_turn" → p.is_alive = true →
        (handle_player_action s a tp ab).2.2
          = nextTurn (addLog (addLog (hpaMid s a tp ab)
              (p.name ++ " is out of AP. Ending turn.")) (p.name ++ " ends turn."))) := by
  intro s a tp ab
  constructor
  · intro hfail
    have hc1 : (handlePlayerActionCore s a tp ab).1 = false := by
      rw [← hpa_fst s a tp ab]
      exact hfail
    rw [hpa_state_of_false hc1]
    rcases hpaCore_frame s a tp ab with hT | hF
    · rw [hc1] at hT
      cases hT
    · exact hF
  · intro hsucc p hpe hap hgs hal
    have hc1 : (handlePlayerActionCore s a tp ab).1 = true := by
      rw [← hpa_fst s a tp ab]
      exact hsucc
    unfold handle_player_action
    dsimp only
    rw [if_pos hc1]
    have hpe2 : playerEntity (addLog (handlePlayerActionCore s a tp ab).2.2
        (handlePlayerActionCore s a tp ab).2.1) = some p := hpe
    rw [hpe2]
    dsimp only
    have hgs0 : (addLog (handlePlayerActionCore s a tp ab).2.2
        (handlePlayerActionCore s a tp ab).2.1).game_state = "player_turn" := hgs
    have hcond : (p.ap == 0 &&
        ((addLog (handlePlayerActionCore s a tp ab).2.2
          (handlePlayerActionCore s a tp ab).2.1).game_state == "player_turn") &&
        p.is_alive) = true := by
      simp [hap, hgs0, hal]
    rw [if_pos hcond]
    dsimp only
    unfold end_player_turn
    have hgs2 : ((addLog (addLog (handlePlayerActionCore s a tp ab).2.2
        (handlePlayerActionCore s a tp ab).2.1)
        (p.name ++ " is out of AP. Ending turn.")).game_state == "player_turn") = true := by
      have h0 : (addLog (addLog (handlePlayerActionCore s a tp ab).2.2
          (handlePlayerActionCore s a tp ab).2.1)
          (p.name ++ " is out of AP. Ending turn.")).game_state = "player_turn" := hgs0
      simp [h0]
    rw [if_pos hgs2]
    have hpe3 : playerEntity (addLog (addLog (handlePlayerActionCore s a tp ab).2.2
        (handlePlayerActionCore s a tp ab).2.1)
        (p.name ++ " is out of AP. Ending turn.")) = some p := hpe
    rw [hpe3]
    dsimp only
    rw [if_pos hal]
    rfl

/-- A tougher goblin that survives the witness's pistol shot. -/
def strongGob : Entity := { goblinCX with hp := 20, max_hp := 20 }

/-- A mid-match player-turn state in which the player has exactly 1 AP. -/
def sw0 : GameEngine :=
  ⟨mapCX, [{ playerCX with ap := 1 }, strongGob], some 0, [0, 1], 0, "player_turn", []⟩

/-- C5: witness — spending the last AP point on a pistol shot ends the
player's turn in the same call, and the engine is on the NPC turn after. -/
theorem claim_C5_witness :
    (handle_player_action sw0 "ability" (some (1, 0)) (some pistol)).2.2
      = nextTurn (addLog (addLog (hpaMid sw0 "ability" (some (1, 0)) (some pistol))
          ("Player" ++ " is out of AP. Ending turn.")) ("Player" ++ " ends turn.")) ∧
    (handle_player_action sw0 "ability" (some (1, 0)) (some pistol)).2.2.game_state
      = "npc_turn" := by
  have h := (claim_C5 sw0 "ability" (some (1, 0)) (some pistol)).2 (by decide)
    { playerCX with ap := 0 } (by decide) (by decide) (by decide) (by decide)
  exact ⟨h, by decide⟩

/-! ## C6: setup with no player-flagged entity -/

/-- An NPC-only entity definition. -/
def goblinDef : EntityDefData :=
  ⟨'g', "Goblin", 3, none, 2, none, ["strike"], some "move_towards_player", "A goblin."⟩

/-- The definition table holding only the goblin. -/
def defsC6 : List (String × EntityDefData) := [("goblin.json", goblinDef)]

/-- The ability registry holding only the strike ability. -/
def regC6 : List (String × Ability) := [("strike", strike)]

/-- Map data placing the single non-player goblin. -/
def placC6 : List Placement := [⟨"goblin", 2, 0⟩]

/-- A freshly constructed engine before loading. -/
def emptyEngine : GameEngine := ⟨mapCX, [], none, [], 0, "initializing", []⟩

/-- The engine after loading the player-less map data. -/
def c6Loaded : GameEngine := initEntitiesFromMapData defsC6 regC6 placC6 emptyEngine

/-- The engine after `start_game` on the player-less match. -/
def c6Started : GameEngine := startGame c6Loaded

/-- C6: evaluation of the code at the failing input.  With a setup whose
only entity is not flagged player-controlled (and is not `player_char`),
`initialize_entities_from_map_data` silently promotes that NPC to the player
slot and `start_game` starts the match in `player_turn` — no terminal
cannot-start signal is raised, contradicting the claim (which matches the
spec's stated intent, engine.py lines 208-211 even noting it "might be
better to error out"). -/
theorem claim_C6 :
    (∀ e ∈ c6Loaded.entities,
      e.behavior ≠ some "player_controlled" ∧ e.entity_id ≠ some "player_char") ∧
    c6Loaded.player = some 0 ∧
    (playerEntity c6Loaded).map (fun e => e.behavior) = some (some "move_towards_player") ∧
    c6Started.game_state = "player_turn" ∧
    c6Started.game_state ≠ "error_no_entities_loaded" :=
  ⟨by decide, by decide, by decide, by decide, by decide⟩
